import Mathlib

/-!
Entity pool, thread protocol, safe-call chain and file helpers of
`metagen_os_core_mac.c`.

A shallow embedding of the entity pool (`mac_entity_buffer`, `mac_entity_free`,
`mac_alloc_entity`, `mac_free_entity`, `os_init`), of the operations built on
it (`os_launch_thread`, `mac_thread_base`, `os_release_thread_handle`,
`os_mutex_alloc`, `os_condition_variable_alloc`), of the safe-call chain
(`os_safe_call`, `mac_safe_call_sig_handler`), and of the file helpers
(`os_file_open`, `os_file_close`, `os_file_read`, `os_file_iter_next`,
`mac_write_list_to_file_descriptor`).

Conventions of the embedding:
* a `MAC_Entity *` is `Option Nat`: `none` is the null pointer and `some i`
  is `&mac_entity_buffer[i]`;
* the global pool is passed explicitly as a `MAC_Pool`;
* a call in which the process ends (a failed `Assert`) returns `none`;
* results of native calls (`pthread_create`, `open`, `write`, ...) are
  parameters.
-/

namespace MacOsCore

/-! ## Data model (`metagen_os_core_mac.h`) -/

/-- The enum `MAC_EntityKind`. -/
inductive MAC_EntityKind where
  | Null
  | Thread
  | Mutex
  | ConditionVariable
  deriving DecidableEq, Repr

/-- The struct `MAC_Entity`. The members of the anonymous union are kept as
separate fields (`thread_func`, `thread_ptr`, `thread_handle`, `mutex`,
`cond`); the values of the native objects are abstract numbers. -/
structure MAC_Entity where
  next : Option Nat
  kind : MAC_EntityKind
  reference_mask : Nat
  thread_func : Nat
  thread_ptr : Nat
  thread_handle : Nat
  mutex : Nat
  cond : Nat
  deriving DecidableEq, Repr

/-- An entity after `MemoryZeroArray`: every member is zero. -/
def MAC_Entity.zero : MAC_Entity :=
  { next := none, kind := MAC_EntityKind.Null, reference_mask := 0,
    thread_func := 0, thread_ptr := 0, thread_handle := 0, mutex := 0, cond := 0 }

/-- The number of elements of `mac_entity_buffer`:
`global MAC_Entity mac_entity_buffer[1024];`. -/
def mac_entity_buffer_count : Nat := 1024

/-- The globals `mac_entity_buffer` and `mac_entity_free`. The buffer is read
by index; only the indices below `mac_entity_buffer_count` are elements of
the C array. -/
structure MAC_Pool where
  mac_entity_buffer : Nat → MAC_Entity
  mac_entity_free : Option Nat

/-- The store `mac_entity_buffer[i] = e`. -/
def buffer_set (buf : Nat → MAC_Entity) (i : Nat) (e : MAC_Entity) : Nat → MAC_Entity :=
  fun j => if j = i then e else buf j

/-- The struct `OS_Handle`, whose only member is `U64 u64[1]`. -/
structure OS_Handle where
  u64_0 : Nat
  deriving DecidableEq, Repr

/-- Where `mac_entity_buffer` lies in memory: its address and
`sizeof(MAC_Entity)`. The array is a global object, so its address is not
null, and it ends inside the 64-bit address space. -/
structure MAC_Layout where
  buffer_addr : Nat
  entity_size : Nat
  buffer_addr_pos : 0 < buffer_addr
  entity_size_pos : 0 < entity_size
  buffer_fits : buffer_addr + mac_entity_buffer_count * entity_size ≤ 2 ^ 64

/-- Modelled from the spec: the macro `IntFromPtr` is not in the source
files; the spec has it reinterpret the pointer as a fixed-width integer. The
null pointer is 0 and `&mac_entity_buffer[i]` is the address of element `i`. -/
def IntFromPtr (lay : MAC_Layout) : Option Nat → Nat
  | none => 0
  | some i => (lay.buffer_addr + i * lay.entity_size) % 2 ^ 64

/-! ## The pool (`mac_alloc_entity`, `mac_free_entity`, `os_init`) -/

/-- Modelled from the spec: the macro `SLLStackPop` is not in the source
files; the spec has it pop the head of the list, `f = f->next`. -/
def SLLStackPop (buf : Nat → MAC_Entity) (f : Nat) : Option Nat :=
  (buf f).next

/-- Modelled from the spec: the macro `SLLStackPush` is not in the source
files; the spec has it push the node onto the head of the list,
`n->next = f, f = n`. -/
def SLLStackPush (s : MAC_Pool) (n : Nat) : MAC_Pool :=
  { mac_entity_buffer :=
      buffer_set s.mac_entity_buffer n
        { s.mac_entity_buffer n with next := s.mac_entity_free },
    mac_entity_free := some n }

/-- Modelled from the spec: the macro `Assert` is not in the source files.
The spec has the allocation fail fatally (process abort) when the pool is
exhausted, so a failed assertion ends the process, which is the result
`none`; the code after the assertion runs when the condition holds. -/
def Assert {α : Type} (cond : Prop) [Decidable cond] (rest : Option α) : Option α :=
  if cond then rest else none

/-- The function `mac_alloc_entity`. The result is the new pool and the
index of the returned entity, or `none` when the process ends in it. -/
def mac_alloc_entity (s : MAC_Pool) (kind : MAC_EntityKind) : Option (MAC_Pool × Nat) :=
  Assert (s.mac_entity_free ≠ none)
    (match s.mac_entity_free with
     | none => none
     | some result =>
       let free := SLLStackPop s.mac_entity_buffer result
       some ({ mac_entity_buffer :=
                 buffer_set s.mac_entity_buffer result
                   { s.mac_entity_buffer result with kind := kind },
               mac_entity_free := free }, result))

/-- The function `mac_free_entity`. -/
def mac_free_entity (s : MAC_Pool) (entity : Nat) : MAC_Pool :=
  SLLStackPush
    { mac_entity_buffer :=
        buffer_set s.mac_entity_buffer entity
          { s.mac_entity_buffer entity with kind := MAC_EntityKind.Null },
      mac_entity_free := s.mac_entity_free }
    entity

/-- The loop of `os_init`,
`for (U64 i = 1; i < ArrayCount(mac_entity_buffer); i += 1, ptr += 1){ ptr->next = ptr + 1; }`,
with `iters` iterations left to run; the result is the final `ptr` and the
buffer. -/
def os_init_loop : Nat → Nat → (Nat → MAC_Entity) → Nat × (Nat → MAC_Entity)
  | 0, ptr, buf => (ptr, buf)
  | iters + 1, ptr, buf =>
    os_init_loop iters (ptr + 1) (buffer_set buf ptr { buf ptr with next := some (ptr + 1) })

/-- The part of `os_init` that builds a pool of `count` entities: the buffer
is zeroed, `ptr = mac_entity_free = mac_entity_buffer`, the loop runs for
`i = 1 .. count - 1`, and `ptr->next = 0` ends the list. -/
def os_init_pool (count : Nat) : MAC_Pool :=
  let r := os_init_loop (count - 1) 0 (fun _ => MAC_Entity.zero)
  { mac_entity_buffer := buffer_set r.2 r.1 { r.2 r.1 with next := none },
    mac_entity_free := some 0 }

/-- The function `os_init`, as far as the pool goes: whatever the globals
held before, the buffer is zeroed and the free list is rebuilt over the
whole of `mac_entity_buffer`. -/
def os_init (_before : MAC_Pool) : MAC_Pool :=
  os_init_pool mac_entity_buffer_count

/-- The entities met by following `next` from `p` until the null link, or
`none` when the null link is not reached within `fuel` entities. -/
def free_list_walk : Nat → (Nat → MAC_Entity) → Option Nat → Option (List Nat)
  | _, _, none => some []
  | 0, _, some _ => none
  | fuel + 1, buf, some i => (free_list_walk fuel buf (buf i).next).map (fun l => i :: l)

/-- The free list of the pool: the entities reachable from `mac_entity_free`. -/
def mac_free_list (s : MAC_Pool) : Option (List Nat) :=
  free_list_walk mac_entity_buffer_count s.mac_entity_buffer s.mac_entity_free

/-- A call of the pool interface. -/
inductive PoolCall where
  | alloc (kind : MAC_EntityKind)
  | free (entity : Nat)
  deriving DecidableEq, Repr

/-- A pool together with the entities that are allocated: those returned by
`mac_alloc_entity` and not yet passed to `mac_free_entity`. -/
structure PoolRun where
  pool : MAC_Pool
  allocated : List Nat

/-- One call made under the caller's contract: `mac_alloc_entity` only while
the free list is not empty, `mac_free_entity` only on an entity that is
allocated. A call outside the contract gives `none`. -/
def pool_call (r : PoolRun) : PoolCall → Option PoolRun
  | PoolCall.alloc kind =>
    match mac_alloc_entity r.pool kind with
    | none => none
    | some (s, e) => some { pool := s, allocated := e :: r.allocated }
  | PoolCall.free entity =>
    if entity ∈ r.allocated then
      some { pool := mac_free_entity r.pool entity, allocated := r.allocated.erase entity }
    else none

/-- A sequence of calls, each made under the caller's contract. -/
def pool_calls (r : PoolRun) : List PoolCall → Option PoolRun
  | [] => some r
  | c :: cs =>
    match pool_call r c with
    | none => none
    | some r1 => pool_calls r1 cs

/-- The state in which every sequence of calls starts: the pool that
`os_init` produced, with nothing allocated. -/
def pool_start (before : MAC_Pool) : PoolRun :=
  { pool := os_init before, allocated := [] }

/-! ## Threads, mutexes and condition variables -/

/-- Modelled from the spec: the macro `PtrFromInt` is not in the source
files; the spec has it be the reverse cast of `IntFromPtr`. The integer 0 is
the null pointer, and an address is read as a pointer to the element of
`mac_entity_buffer` that lies there. -/
def PtrFromInt (lay : MAC_Layout) (n : Nat) : Option Nat :=
  if n = 0 then none else some ((n - lay.buffer_addr) / lay.entity_size)

/-- The builtin `__sync_fetch_and_and(&entity->reference_mask, mask)` on the
32-bit mask, one atomic step: the new mask is `old & mask` and the old mask
is returned. -/
def sync_fetch_and_and (s : MAC_Pool) (entity : Nat) (mask : Nat) : MAC_Pool × Nat :=
  let old := (s.mac_entity_buffer entity).reference_mask
  ({ mac_entity_buffer :=
       buffer_set s.mac_entity_buffer entity
         { s.mac_entity_buffer entity with reference_mask := old &&& mask },
     mac_entity_free := s.mac_entity_free }, old)

/-- The constant `~0x2` as a `U32`. -/
def not_0x2 : Nat := 0xFFFFFFFD

/-- The constant `~0x1` as a `U32`. -/
def not_0x1 : Nat := 0xFFFFFFFE

/-- The function `os_launch_thread`. `pthread_result` is what
`pthread_create` returned and `native_thread` is the thread id it stored in
`entity->thread.handle` when it succeeded (returned 0). `none` is the abort
of `mac_alloc_entity`. -/
def os_launch_thread (lay : MAC_Layout) (s : MAC_Pool) (func ptr : Nat)
    (pthread_result : Int) (native_thread : Nat) : Option (MAC_Pool × OS_Handle) :=
  match mac_alloc_entity s MAC_EntityKind.Thread with
  | none => none
  | some (s1, entity) =>
    let s2 : MAC_Pool :=
      { mac_entity_buffer :=
          buffer_set s1.mac_entity_buffer entity
            { s1.mac_entity_buffer entity with
              reference_mask := 0x3, thread_func := func, thread_ptr := ptr },
        mac_entity_free := s1.mac_entity_free }
    let s3 : MAC_Pool :=
      if pthread_result = 0 then
        { mac_entity_buffer :=
            buffer_set s2.mac_entity_buffer entity
              { s2.mac_entity_buffer entity with thread_handle := native_thread },
          mac_entity_free := s2.mac_entity_free }
      else s2
    if pthread_result = -1 then
      some (mac_free_entity s3 entity, { u64_0 := IntFromPtr lay none })
    else
      some (s3, { u64_0 := IntFromPtr lay (some entity) })

/-- The function `os_mutex_alloc`. `pthread_result` is what
`pthread_mutex_init` returned and `native_mutex` is the mutex it stored in
`entity->mutex` when it succeeded. -/
def os_mutex_alloc (lay : MAC_Layout) (s : MAC_Pool)
    (pthread_result : Int) (native_mutex : Nat) : Option (MAC_Pool × OS_Handle) :=
  match mac_alloc_entity s MAC_EntityKind.Mutex with
  | none => none
  | some (s1, entity) =>
    let s2 : MAC_Pool :=
      if pthread_result = 0 then
        { mac_entity_buffer :=
            buffer_set s1.mac_entity_buffer entity
              { s1.mac_entity_buffer entity with mutex := native_mutex },
          mac_entity_free := s1.mac_entity_free }
      else s1
    if pthread_result = -1 then
      some (mac_free_entity s2 entity, { u64_0 := IntFromPtr lay none })
    else
      some (s2, { u64_0 := IntFromPtr lay (some entity) })

/-- The function `os_condition_variable_alloc`. `pthread_result` is what
`pthread_cond_init` returned and `native_cond` is the condition variable it
stored in `entity->cond` when it succeeded. -/
def os_condition_variable_alloc (lay : MAC_Layout) (s : MAC_Pool)
    (pthread_result : Int) (native_cond : Nat) : Option (MAC_Pool × OS_Handle) :=
  match mac_alloc_entity s MAC_EntityKind.ConditionVariable with
  | none => none
  | some (s1, entity) =>
    let s2 : MAC_Pool :=
      if pthread_result = 0 then
        { mac_entity_buffer :=
            buffer_set s1.mac_entity_buffer entity
              { s1.mac_entity_buffer entity with cond := native_cond },
          mac_entity_free := s1.mac_entity_free }
      else s1
    if pthread_result = -1 then
      some (mac_free_entity s2 entity, { u64_0 := IntFromPtr lay none })
    else
      some (s2, { u64_0 := IntFromPtr lay (some entity) })

/-- The first step of the end of `mac_thread_base`:
`U32 result = __sync_fetch_and_and(&entity->reference_mask, ~0x2);`. -/
def mac_thread_base_clear (s : MAC_Pool) (entity : Nat) : MAC_Pool × Nat :=
  sync_fetch_and_and s entity not_0x2

/-- The second step of the end of `mac_thread_base`:
`if ((result & 0x1) == 0){ mac_free_entity(entity); }`. The list holds the
arguments of the calls of `mac_free_entity` that were made. -/
def mac_thread_base_check (s : MAC_Pool) (entity : Nat) (result : Nat) : MAC_Pool × List Nat :=
  if result &&& 0x1 = 0 then (mac_free_entity s entity, [entity]) else (s, [])

/-- The function `mac_thread_base` from the return of `func(thread_ptr)` on:
the trampoline's completion. -/
def mac_thread_base_finish (s : MAC_Pool) (entity : Nat) : MAC_Pool × List Nat :=
  let r := mac_thread_base_clear s entity
  mac_thread_base_check r.1 entity r.2

/-- The function `mac_thread_base`. `user func thread_ptr` is what running
the thread function `func(thread_ptr)` does to the pool. -/
def mac_thread_base (user : Nat → Nat → MAC_Pool → MAC_Pool) (s : MAC_Pool) (entity : Nat) :
    MAC_Pool × List Nat :=
  let func := (s.mac_entity_buffer entity).thread_func
  let thread_ptr := (s.mac_entity_buffer entity).thread_ptr
  mac_thread_base_finish (user func thread_ptr s) entity

/-- The first step of `os_release_thread_handle` on the decoded entity:
`U32 result = __sync_fetch_and_and(&entity->reference_mask, ~0x1);`. -/
def os_release_thread_handle_clear (s : MAC_Pool) (entity : Nat) : MAC_Pool × Nat :=
  sync_fetch_and_and s entity not_0x1

/-- The second step of `os_release_thread_handle`:
`if ((result & 0x2) == 0){ mac_free_entity(entity); }`. -/
def os_release_thread_handle_check (s : MAC_Pool) (entity : Nat) (result : Nat) :
    MAC_Pool × List Nat :=
  if result &&& 0x2 = 0 then (mac_free_entity s entity, [entity]) else (s, [])

/-- The body of `os_release_thread_handle` once the handle is decoded. -/
def os_release_thread_entity (s : MAC_Pool) (entity : Nat) : MAC_Pool × List Nat :=
  let r := os_release_thread_handle_clear s entity
  os_release_thread_handle_check r.1 entity r.2

/-- The function `os_release_thread_handle`. A null handle makes the
function read through a null pointer, which ends the process: `none`. -/
def os_release_thread_handle (lay : MAC_Layout) (s : MAC_Pool) (thread : OS_Handle) :
    Option (MAC_Pool × List Nat) :=
  match PtrFromInt lay thread.u64_0 with
  | none => none
  | some entity => some (os_release_thread_entity s entity)

/-! ### The race of the two owners of a thread entity -/

/-- The two owners of a thread entity: the trampoline `mac_thread_base`
(bit 1 of the mask) and the holder of the handle, who calls
`os_release_thread_handle` (bit 0). -/
inductive Owner where
  | trampoline
  | handle
  deriving DecidableEq, Repr

/-- The atomic steps of the two operations: the fetch-and-and of an owner and
the test of its `result` with the call of `mac_free_entity`. -/
inductive ProtoStep where
  | clear (o : Owner)
  | check (o : Owner)
  deriving DecidableEq, Repr

/-- The pool, the local `result` of each of the two operations once its
fetch-and-and has run, and the calls of `mac_free_entity` made so far, each
with its caller. -/
structure ProtoState where
  pool : MAC_Pool
  trampoline_result : Option Nat
  handle_result : Option Nat
  free_calls : List (Owner × Nat)

/-- One atomic step of the race on `entity`. A `check` before the same
owner's `clear` cannot happen and leaves the state as it is. -/
def proto_step (entity : Nat) (c : ProtoState) : ProtoStep → ProtoState
  | ProtoStep.clear Owner.trampoline =>
    let r := mac_thread_base_clear c.pool entity
    { c with pool := r.1, trampoline_result := some r.2 }
  | ProtoStep.clear Owner.handle =>
    let r := os_release_thread_handle_clear c.pool entity
    { c with pool := r.1, handle_result := some r.2 }
  | ProtoStep.check Owner.trampoline =>
    match c.trampoline_result with
    | none => c
    | some result =>
      let r := mac_thread_base_check c.pool entity result
      { c with pool := r.1,
               free_calls := c.free_calls ++ r.2.map (fun e => (Owner.trampoline, e)) }
  | ProtoStep.check Owner.handle =>
    match c.handle_result with
    | none => c
    | some result =>
      let r := os_release_thread_handle_check c.pool entity result
      { c with pool := r.1,
               free_calls := c.free_calls ++ r.2.map (fun e => (Owner.handle, e)) }

/-- The steps of a schedule, run in order. -/
def proto_run (entity : Nat) (c : ProtoState) (sched : List ProtoStep) : ProtoState :=
  sched.foldl (proto_step entity) c

/-- The state in which the race starts: neither operation has run. -/
def proto_start (s : MAC_Pool) : ProtoState :=
  { pool := s, trampoline_result := none, handle_result := none, free_calls := [] }

/-- All the ways of interleaving two sequences of steps, each sequence
keeping its own order. -/
def interleavings : List ProtoStep → List ProtoStep → List (List ProtoStep)
  | [], ys => [ys]
  | x :: xs, [] => [x :: xs]
  | x :: xs, y :: ys =>
    (interleavings xs (y :: ys)).map (fun l => x :: l) ++
      (interleavings (x :: xs) ys).map (fun l => y :: l)

/-- The steps of the completion of the trampoline, in program order. -/
def trampoline_steps : List ProtoStep :=
  [ProtoStep.clear Owner.trampoline, ProtoStep.check Owner.trampoline]

/-- The steps of `os_release_thread_handle`, in program order. -/
def handle_steps : List ProtoStep :=
  [ProtoStep.clear Owner.handle, ProtoStep.check Owner.handle]

/-- The owner whose fetch-and-and takes effect last in the schedule. -/
def last_clear : List ProtoStep → Option Owner
  | [] => none
  | ProtoStep.clear o :: rest =>
    match last_clear rest with
    | none => some o
    | some o2 => some o2
  | ProtoStep.check _ :: rest => last_clear rest

/-! ## The safe-call chain (`os_safe_call`, `mac_safe_call_sig_handler`) -/

/-- The struct `MAC_SafeCallChain`. `next` is a pointer to a frame (its
address), `fail_handler` a function pointer (0 is the null pointer). -/
structure MAC_SafeCallChain where
  next : Option Nat
  fail_handler : Nat
  ptr : Nat
  deriving DecidableEq, Repr

/-- What `sa_handler` of a `struct sigaction` can hold: the default action,
ignore, the function `mac_safe_call_sig_handler`, or another function. -/
inductive SigHandler where
  | SIG_DFL
  | SIG_IGN
  | mac_safe_call_sig_handler
  | other (fn : Nat)
  deriving DecidableEq, Repr

/-- The native `struct sigaction`. -/
structure SigAction where
  sa_handler : SigHandler
  sa_mask : Nat
  sa_flags : Nat
  deriving DecidableEq, Repr

/-- The thread-local `mac_safe_call_chain`, the memory that holds the frames
(read by address), and the signal table of the process (read by signal
number). -/
structure SafeCallState where
  mac_safe_call_chain : Option Nat
  frames : Nat → MAC_SafeCallChain
  signal_table : Int → SigAction

/-- The signal numbers of `<signal.h>` on macOS. -/
def SIGILL : Int := 4

/-- See `SIGILL`. -/
def SIGTRAP : Int := 5

/-- See `SIGILL`. -/
def SIGFPE : Int := 8

/-- See `SIGILL`. -/
def SIGBUS : Int := 10

/-- See `SIGILL`. -/
def SIGSEGV : Int := 11

/-- The array `signals_to_handle` of `os_safe_call`. -/
def signals_to_handle : List Int := [SIGILL, SIGFPE, SIGSEGV, SIGBUS, SIGTRAP]

/-- The native call `sigaction(signum, &act, &oact)`: the action of `signum`
becomes `act` and the action it had is returned in `oact`. -/
def sigaction (w : SafeCallState) (signum : Int) (act : SigAction) : SafeCallState × SigAction :=
  ({ w with signal_table := fun n => if n = signum then act else w.signal_table n },
   w.signal_table signum)

/-- The first loop of `os_safe_call`,
`sigaction(signals_to_handle[i], &new_act, &og_act[i])` for each `i`: the
result is the new state and the array `og_act`. -/
def install_handlers (new_act : SigAction) :
    List Int → SafeCallState → SafeCallState × List SigAction
  | [], w => (w, [])
  | sig :: rest, w =>
    let r := sigaction w sig new_act
    let r2 := install_handlers new_act rest r.1
    (r2.1, r.2 :: r2.2)

/-- The second loop of `os_safe_call`,
`sigaction(signals_to_handle[i], &og_act[i], 0)` for each `i`. -/
def restore_handlers : List Int → List SigAction → SafeCallState → SafeCallState
  | sig :: rest, act :: acts, w => restore_handlers rest acts (sigaction w sig act).1
  | _, _, w => w

/-- The function `os_safe_call` up to the call of `func`: the local `chain`,
which lies at the address `chain_addr` of the stack, is zeroed, pushed on
`mac_safe_call_chain` and filled in, and the handlers are installed. The
result is the state in which `func(ptr)` starts and the array `og_act`. -/
def os_safe_call_enter (fail_handler ptr : Nat) (chain_addr : Nat) (w : SafeCallState) :
    SafeCallState × List SigAction :=
  let pushed : MAC_SafeCallChain :=
    { next := w.mac_safe_call_chain, fail_handler := 0, ptr := 0 }
  let filled : MAC_SafeCallChain := { pushed with fail_handler := fail_handler, ptr := ptr }
  let w1 : SafeCallState :=
    { w with mac_safe_call_chain := some chain_addr,
             frames := fun a => if a = chain_addr then filled else w.frames a }
  let new_act : SigAction :=
    { sa_handler := SigHandler.mac_safe_call_sig_handler, sa_mask := 0, sa_flags := 0 }
  install_handlers new_act signals_to_handle w1

/-- The function `os_safe_call` from the return of `func` on: the second
loop. Nothing follows it in the source. -/
def os_safe_call_leave (og_act : List SigAction) (w : SafeCallState) : SafeCallState :=
  restore_handlers signals_to_handle og_act w

/-- The function `os_safe_call` for a `func` that returns: `func ptr` is what
running `func(ptr)` does to the state. -/
def os_safe_call (func : Nat → SafeCallState → SafeCallState) (fail_handler ptr : Nat)
    (chain_addr : Nat) (w : SafeCallState) : SafeCallState :=
  let r := os_safe_call_enter fail_handler ptr chain_addr w
  os_safe_call_leave r.2 (func ptr r.1)

/-- What the process does in the signal handler: it calls a function through
a pointer with an argument, or it calls `abort()`. -/
inductive HandlerEvent where
  | call (fn arg : Nat)
  | abort
  deriving DecidableEq, Repr

/-- The function `mac_safe_call_sig_handler`, given as the events it
performs in order (a `fail_handler` that is called is taken to return). The
function does not return: `abort()` ends the process. -/
def mac_safe_call_sig_handler (w : SafeCallState) (_signum : Int) : List HandlerEvent :=
  match w.mac_safe_call_chain with
  | none => [HandlerEvent.abort]
  | some chain =>
    if (w.frames chain).fail_handler ≠ 0 then
      [HandlerEvent.call (w.frames chain).fail_handler (w.frames chain).ptr, HandlerEvent.abort]
    else [HandlerEvent.abort]

/-! ## Condition-variable wait and the state of a launch before `pthread_create` -/

/-- The macro `NotImplemented` is not in the source files. Whether it ends
the process in this build (`traps`, the result `none`) or does nothing is a
parameter. -/
def NotImplemented {α : Type} (traps : Bool) (rest : Option α) : Option α :=
  if traps then none else rest

/-- The function `os_condition_variable_wait_`. `signaled_before_deadline` is
what happens to the condition variable while the caller would wait: the
function does not read it, the call of `pthread_cond_timedwait` being a
comment in the source. -/
def os_condition_variable_wait_ (lay : MAC_Layout) (traps : Bool) (cv mutex : OS_Handle)
    (_endt_us : Nat) (_signaled_before_deadline : Bool) : Option Bool :=
  NotImplemented traps
    (let result := false
     let _entity_cond := PtrFromInt lay cv.u64_0
     let _entity_mutex := PtrFromInt lay mutex.u64_0
     some result)

/-- The function `os_launch_thread` up to the call of `pthread_create`: the
pool in which the native thread is created, and the entity. -/
def os_launch_thread_before_create (s : MAC_Pool) (func ptr : Nat) : Option (MAC_Pool × Nat) :=
  match mac_alloc_entity s MAC_EntityKind.Thread with
  | none => none
  | some (s1, entity) =>
    some ({ mac_entity_buffer :=
              buffer_set s1.mac_entity_buffer entity
                { s1.mac_entity_buffer entity with
                  reference_mask := 0x3, thread_func := func, thread_ptr := ptr },
            mac_entity_free := s1.mac_entity_free }, entity)

/-- The function `os_launch_thread` from the call of `pthread_create` on, in
the pool that `os_launch_thread_before_create` gives. -/
def os_launch_thread_create (lay : MAC_Layout) (s2 : MAC_Pool) (entity : Nat)
    (pthread_result : Int) (native_thread : Nat) : MAC_Pool × OS_Handle :=
  let s3 : MAC_Pool :=
    if pthread_result = 0 then
      { mac_entity_buffer :=
          buffer_set s2.mac_entity_buffer entity
            { s2.mac_entity_buffer entity with thread_handle := native_thread },
        mac_entity_free := s2.mac_entity_free }
    else s2
  if pthread_result = -1 then
    (mac_free_entity s3 entity, { u64_0 := IntFromPtr lay none })
  else
    (s3, { u64_0 := IntFromPtr lay (some entity) })

/-! ## File handles (`os_file_open`, `os_file_close`, `os_file_read`) -/

/-- The function `mac_handle_from_file_descriptor`:
`((U64)file_descriptor) + 1`. The conversion of the `int` to `U64` is its
value modulo 2^64, and the sum is taken modulo 2^64. -/
def mac_handle_from_file_descriptor (file_descriptor : Int) : Nat :=
  ((file_descriptor % 2 ^ 64).toNat + 1) % 2 ^ 64

/-- The conversion `(int)x` of a `U64`: the low 32 bits, read as a signed
number. -/
def int_from_u64 (x : Nat) : Int :=
  if x % 2 ^ 32 < 2 ^ 31 then ((x % 2 ^ 32 : Nat) : Int) else ((x % 2 ^ 32 : Nat) : Int) - 2 ^ 32

/-- The function `mac_file_descriptor_from_handle`: `(int)(file.u64[0] - 1)`,
the difference taken modulo 2^64. -/
def mac_file_descriptor_from_handle (file : OS_Handle) : Int :=
  int_from_u64 ((file.u64_0 % 2 ^ 64 + 2 ^ 64 - 1) % 2 ^ 64)

/-- The tests `flags & OS_AccessFlag_...` of an `OS_AccessFlags` value: the
constants are not in the source files, so each test is a field. -/
structure OS_AccessFlags where
  Read : Bool
  Write : Bool
  Execute : Bool
  Shared : Bool
  deriving DecidableEq, Repr

/-- The constants of `<fcntl.h>` and `<sys/stat.h>` on macOS. -/
def O_RDONLY : Nat := 0x0000

/-- See `O_RDONLY`. -/
def O_WRONLY : Nat := 0x0001

/-- See `O_RDONLY`. -/
def O_RDWR : Nat := 0x0002

/-- See `O_RDONLY`. -/
def O_SHLOCK : Nat := 0x0010

/-- See `O_RDONLY`. -/
def O_EXLOCK : Nat := 0x0020

/-- See `O_RDONLY`. -/
def O_CREAT : Nat := 0x0200

/-- See `O_RDONLY`. -/
def S_IRUSR : Nat := 0o400

/-- See `O_RDONLY`. -/
def S_IWUSR : Nat := 0o200

/-- See `O_RDONLY`. -/
def S_IXUSR : Nat := 0o100

/-- The value of `oflag` that `os_file_open` passes to `open`. -/
def os_file_open_oflag (flags : OS_AccessFlags) : Nat :=
  let oflag : Nat := 0
  let oflag :=
    if flags.Read && !flags.Write then oflag ||| O_RDONLY
    else if !flags.Read && flags.Write then oflag ||| O_WRONLY
    else if flags.Read && flags.Write then oflag ||| O_RDWR
    else oflag
  let oflag := if flags.Shared then oflag ||| O_SHLOCK else oflag ||| O_EXLOCK
  if flags.Write then oflag ||| O_CREAT else oflag

/-- The value of `mode` that `os_file_open` passes to `open`. -/
def os_file_open_mode (flags : OS_AccessFlags) : Nat :=
  let mode : Nat := 0
  let mode := if flags.Read then mode ||| S_IRUSR else mode
  let mode := if flags.Write then mode ||| S_IWUSR else mode
  if flags.Execute then mode ||| S_IXUSR else mode

/-- The function `os_file_open`. `native_open oflag mode` is what the native
`open` returns for the path. `none` is the end of the process in
`NotImplemented`, which is reached when the flag `Execute` is set. -/
def os_file_open (traps : Bool) (native_open : Nat → Nat → Int) (flags : OS_AccessFlags) :
    Option OS_Handle :=
  (if flags.Execute then NotImplemented traps (some ()) else some ()).bind fun _ =>
    let fd := native_open (os_file_open_oflag flags) (os_file_open_mode flags)
    some { u64_0 := mac_handle_from_file_descriptor fd }

/-- The function `os_file_close`: the result is the descriptors passed to
the native `close`, in order. -/
def os_file_close (file : OS_Handle) : List Int :=
  let fd := mac_file_descriptor_from_handle file
  if fd > -1 then [fd] else []

/-- The function `os_file_read`. `size` is `dim_1u64(rng)` (the helper is
not in the source files) and `rng_min` is `rng.min`; `native_pread fd size
offset` is what `pread` returns. The result is the value returned and the
calls of `pread` that were made, each as descriptor, size and offset. -/
def os_file_read (native_pread : Int → Nat → Nat → Int) (file : OS_Handle)
    (size rng_min : Nat) : Nat × List (Int × Nat × Nat) :=
  let result : Nat := 0
  let fd := mac_file_descriptor_from_handle file
  if fd > -1 then
    let amount_read := native_pread fd size rng_min
    if amount_read > 0 then (amount_read.toNat % 2 ^ 64, [(fd, size, rng_min)])
    else (result, [(fd, size, rng_min)])
  else (result, [])

/-! ## Directory iteration (`os_file_iter_next`) -/

/-- The native `struct dirent`, as far as the iterator reads it: the name
(the characters before the terminating NUL) and the type. -/
structure dirent where
  d_name : List Char
  d_type : Nat
  deriving DecidableEq, Repr

/-- The constant `DT_DIR` of `<dirent.h>`. -/
def DT_DIR : Nat := 4

/-- The tests `flags & OS_FileIterFlag_...` of an `OS_FileIterFlags` value:
the constants are not in the source files, so each test is a field. -/
structure OS_FileIterFlags where
  SkipFolders : Bool
  SkipFiles : Bool
  SkipHiddenFiles : Bool
  Done : Bool
  deriving DecidableEq, Repr

/-- The struct `OS_FileIter` with the `MAC_FileIter` in its memory: the flags
and the directory stream `dir`, which is `NULL` or holds the entries that
`readdir` has yet to deliver, in order. -/
structure OS_FileIter where
  flags : OS_FileIterFlags
  dir : Option (List dirent)
  deriving DecidableEq, Repr

/-- The character `file_name[i]` of a C string: past the end of the name it
is the terminating NUL. -/
def c_char_at (file_name : List Char) (i : Nat) : Char :=
  file_name.getD i (Char.ofNat 0)

/-- The value of `usable_file` that `os_file_iter_next` computes for an
entry. -/
def usable_file (flags : OS_FileIterFlags) (entry : dirent) : Bool :=
  let usable_file := true
  let file_name := entry.d_name
  let file_type := entry.d_type
  let usable_file :=
    if c_char_at file_name 0 = '.' then
      if flags.SkipHiddenFiles then false
      else if c_char_at file_name 1 = Char.ofNat 0 then false
      else if c_char_at file_name 1 = '.' ∧ c_char_at file_name 2 = Char.ofNat 0 then false
      else usable_file
    else usable_file
  if file_type = DT_DIR then
    if flags.SkipFolders then false else usable_file
  else
    if flags.SkipFiles then false else usable_file

/-- What one run of the `do ... while` loop of `os_file_iter_next` leaves:
the entry that was emitted, if one was (then `result` is 1), the directory
stream, and whether `OS_FileIterFlag_Done` was set. -/
structure IterLoop where
  emitted : Option dirent
  stream : List dirent
  done : Bool
  deriving DecidableEq, Repr

/-- The `do ... while` loop of `os_file_iter_next` on the directory stream.
Each pass reads an entry with `entry = readdir(...)` at its top; when the
entry is usable it is emitted, a further `readdir` tests for the end of the
directory and the loop is left; when it is not, the loop condition
`(entry = readdir(...))` reads a further entry. -/
def os_file_iter_next_loop (flags : OS_FileIterFlags) : List dirent → IterLoop
  | [] => { emitted := none, stream := [], done := false }
  | entry :: rest =>
    if usable_file flags entry then
      match rest with
      | [] => { emitted := some entry, stream := [], done := true }
      | _ :: rest2 => { emitted := some entry, stream := rest2, done := false }
    else
      match rest with
      | [] => { emitted := none, stream := [], done := false }
      | _ :: rest2 => os_file_iter_next_loop flags rest2

/-- The function `os_file_iter_next`: the iterator after the call and the
name stored in `info_out` when the result is 1, `none` when the result is 0. -/
def os_file_iter_next (iter : OS_FileIter) : OS_FileIter × Option (List Char) :=
  match iter.dir with
  | none => (iter, none)
  | some stream =>
    if !iter.flags.Done then
      let r := os_file_iter_next_loop iter.flags stream
      ({ flags := { iter.flags with Done := iter.flags.Done || r.done }, dir := some r.stream },
       r.emitted.map (fun entry => entry.d_name))
    else (iter, none)

/-- The names emitted by calling `os_file_iter_next` again and again until
it returns 0, at most `fuel` times. -/
def os_file_iter_all : Nat → OS_FileIter → List (List Char)
  | 0, _ => []
  | fuel + 1, iter =>
    match os_file_iter_next iter with
    | (_, none) => []
    | (iter2, some name) => name :: os_file_iter_all fuel iter2

/-! ## Writing a string list (`mac_write_list_to_file_descriptor`) -/

/-- The struct `String8List`, as far as the function reads it: the sizes of
the strings of its nodes, from `first` on, and `total_size`. -/
structure String8List where
  node_sizes : List Nat
  total_size : Nat
  deriving DecidableEq, Repr

/-- What `mac_write_list_to_file_descriptor` returns, with the number of
bytes that the calls of `write` accepted (the final value of `p`). -/
structure WriteResult where
  success : Bool
  accepted : Nat
  deriving DecidableEq, Repr

/-- The `for` loop of `mac_write_list_to_file_descriptor`, run for at most
`fuel` passes (`none` past them, or when `Assert(ptr <= opl)` fails).
`left` is `opl - ptr`, `rest` the sizes of the nodes after `node`, `calls`
the number of calls of `write` made so far; `native_write calls amt` is what
the next call of `write` returns. `saturate` is `u32_from_u64_saturate`,
which is not in the source files. -/
def mac_write_list_loop (saturate : Nat → Nat) (native_write : Nat → Nat → Int)
    (total_size : Nat) : Nat → Bool → Nat → List Nat → Nat → Nat → Option WriteResult
  | 0, _, _, _, _, _ => none
  | fuel + 1, success, left, rest, p, calls =>
    if p < total_size then
      let amt64 := left
      let amt := saturate amt64
      let written_amt := native_write calls amt
      if written_amt < 0 then some { success := success, accepted := p }
      else
        let p2 := (p + written_amt.toNat) % 2 ^ 64
        Assert (written_amt.toNat ≤ left)
          (if left - written_amt.toNat = 0 then
            match rest with
            | [] =>
              some { success := if p2 < total_size then false else success, accepted := p2 }
            | size :: rest2 =>
              mac_write_list_loop saturate native_write total_size fuel success size rest2 p2
                (calls + 1)
          else
            mac_write_list_loop saturate native_write total_size fuel success
              (left - written_amt.toNat) rest p2 (calls + 1))
    else some { success := success, accepted := p }

/-- The function `mac_write_list_to_file_descriptor`, its loop run for at
most `fuel` passes. -/
def mac_write_list_to_file_descriptor (saturate : Nat → Nat) (native_write : Nat → Nat → Int)
    (fuel : Nat) (list : String8List) : Option WriteResult :=
  let success := true
  match list.node_sizes with
  | [] => some { success := success, accepted := 0 }
  | size :: rest =>
    mac_write_list_loop saturate native_write list.total_size fuel success size rest 0 0

/-! ## Names of signals (`mac_string_from_signal`) -/

/-- The constant `SIGEV_NONE` of `<sys/signal.h>` on macOS. It is not a
signal number; the source has a case label for it. -/
def SIGEV_NONE : Int := 0

/-- See `SIGILL`. -/
def SIGHUP : Int := 1

/-- See `SIGILL`. -/
def SIGINT : Int := 2

/-- See `SIGILL`. -/
def SIGQUIT : Int := 3

/-- See `SIGILL`. -/
def SIGABRT : Int := 6

/-- See `SIGILL`. -/
def SIGEMT : Int := 7

/-- See `SIGILL`. -/
def SIGKILL : Int := 9

/-- See `SIGILL`. -/
def SIGSYS : Int := 12

/-- See `SIGILL`. -/
def SIGPIPE : Int := 13

/-- See `SIGILL`. -/
def SIGALRM : Int := 14

/-- See `SIGILL`. -/
def SIGTERM : Int := 15

/-- See `SIGILL`. -/
def SIGURG : Int := 16

/-- See `SIGILL`. -/
def SIGSTOP : Int := 17

/-- See `SIGILL`. -/
def SIGTSTP : Int := 18

/-- See `SIGILL`. -/
def SIGCONT : Int := 19

/-- See `SIGILL`. -/
def SIGCHLD : Int := 20

/-- See `SIGILL`. -/
def SIGTTIN : Int := 21

/-- See `SIGILL`. -/
def SIGTTOU : Int := 22

/-- See `SIGILL`. -/
def SIGIO : Int := 23

/-- See `SIGILL`. -/
def SIGXCPU : Int := 24

/-- See `SIGILL`. -/
def SIGXFSZ : Int := 25

/-- See `SIGILL`. -/
def SIGVTALRM : Int := 26

/-- See `SIGILL`. -/
def SIGPROF : Int := 27

/-- See `SIGILL`. -/
def SIGWINCH : Int := 28

/-- See `SIGILL`. -/
def SIGINFO : Int := 29

/-- See `SIGILL`. -/
def SIGUSR1 : Int := 30

/-- See `SIGILL`. -/
def SIGUSR2 : Int := 31

/-- One `case` of a `switch` whose cases assign a string literal to
`result`: the label, the literal, and whether the case ends in `break`. -/
structure SwitchCase where
  label : Int
  literal : String
  has_break : Bool
  deriving DecidableEq, Repr

/-- The cases of the `switch` of `mac_string_from_signal`, in the order of
the source. Every case ends in `break` but the case of the label written
`SIGIO` in the source, which has none. -/
def mac_string_from_signal_cases : List SwitchCase :=
  [
    { label := SIGABRT, literal := "SIGABRT", has_break := true },
    { label := SIGALRM, literal := "SIGALRM", has_break := true },
    { label := SIGBUS, literal := "SIGBUS", has_break := true },
    { label := SIGCHLD, literal := "SIGCHLD", has_break := true },
    { label := SIGCONT, literal := "SIGCONT", has_break := true },
    { label := SIGEMT, literal := "SIGEMT", has_break := true },
    { label := SIGEV_NONE, literal := "SIGEV_NONE", has_break := true },
    { label := SIGFPE, literal := "SIGFPE", has_break := true },
    { label := SIGHUP, literal := "SIGHUP", has_break := true },
    { label := SIGILL, literal := "SIGILL", has_break := true },
    { label := SIGINT, literal := "SIGINT", has_break := true },
    { label := SIGIO, literal := "SIGIO", has_break := false },
    { label := SIGKILL, literal := "SIGKILL", has_break := true },
    { label := SIGPROF, literal := "SIGPROF", has_break := true },
    { label := SIGINFO, literal := "SIGINFO", has_break := true },
    { label := SIGPIPE, literal := "SIGPIPE", has_break := true },
    { label := SIGQUIT, literal := "SIGQUIT", has_break := true },
    { label := SIGSEGV, literal := "SIGSEGV", has_break := true },
    { label := SIGSTOP, literal := "SIGSTOP", has_break := true },
    { label := SIGTSTP, literal := "SIGTSTP", has_break := true },
    { label := SIGSYS, literal := "SIGSYS", has_break := true },
    { label := SIGTERM, literal := "SIGTERM", has_break := true },
    { label := SIGTRAP, literal := "SIGTRAP", has_break := true },
    { label := SIGTTIN, literal := "SIGTTIN", has_break := true },
    { label := SIGTTOU, literal := "SIGTTOU", has_break := true },
    { label := SIGURG, literal := "SIGURG", has_break := true },
    { label := SIGUSR1, literal := "SIGUSR1", has_break := true },
    { label := SIGUSR2, literal := "SIGUSR2", has_break := true },
    { label := SIGVTALRM, literal := "SIGVTALRM", has_break := true },
    { label := SIGXCPU, literal := "SIGXCPU", has_break := true },
    { label := SIGXFSZ, literal := "SIGXFSZ", has_break := true },
    { label := SIGWINCH, literal := "SIGWINCH", has_break := true } ]

/-- The run of a `switch` from a case that has been entered: the case
assigns its literal to `result`; with a `break` the `switch` is left, without
one the run falls through to the next case. -/
def switch_run (result : String) : List SwitchCase → String
  | [] => result
  | c :: rest => if c.has_break then c.literal else switch_run c.literal rest

/-- The `switch (value)`: the first case whose label is `value` is entered;
when no label is `value` (there is no `default`), `result` is left as it is. -/
def switch_on (value : Int) (result : String) : List SwitchCase → String
  | [] => result
  | c :: rest =>
    if value = c.label then switch_run result (c :: rest) else switch_on value result rest

/-- The function `mac_string_from_signal`. -/
def mac_string_from_signal (signum : Int) : String :=
  let result := "<unknown-signal>"
  switch_on signum result mac_string_from_signal_cases

/-! ## Notions used to state the properties -/

/-- The list `l` is the free list that starts at `p`: following `next` from
`p` meets exactly the entities of `l`, in order, and then the null link. -/
def free_chain (buf : Nat → MAC_Entity) : Option Nat → List Nat → Prop
  | p, [] => p = none
  | p, i :: l => p = some i ∧ free_chain buf (buf i).next l

/-- Successive calls of `mac_alloc_entity`, one for each kind of the list,
with no call of `mac_free_entity` in between: the final pool and the entities
returned, in order. `none` when one of the calls aborts. -/
def alloc_all : List MAC_EntityKind → MAC_Pool → Option (MAC_Pool × List Nat)
  | [], s => some (s, [])
  | k :: ks, s =>
    match mac_alloc_entity s k with
    | none => none
    | some (s1, e) =>
      match alloc_all ks s1 with
      | none => none
      | some (s2, es) => some (s2, e :: es)

/-- The state of a thread that has not yet called `os_safe_call`, in a
process that has installed no signal handler: `mac_safe_call_chain` is null
and every signal has its default action. -/
def safe_call_start : SafeCallState :=
  { mac_safe_call_chain := none,
    frames := fun _ => { next := none, fail_handler := 0, ptr := 0 },
    signal_table := fun _ => { sa_handler := SigHandler.SIG_DFL, sa_mask := 0, sa_flags := 0 } }

/-- A pool for examples, as the globals are before `os_init`: all zero. -/
def zero_pool : MAC_Pool :=
  { mac_entity_buffer := fun _ => MAC_Entity.zero, mac_entity_free := none }

/-- A pool for examples in which every entity is a thread entity with both
owner bits set and the free list is empty. -/
def thread_pool : MAC_Pool :=
  { mac_entity_buffer := fun _ =>
      { MAC_Entity.zero with kind := MAC_EntityKind.Thread, reference_mask := 0x3 },
    mac_entity_free := none }

/-- The state in which `f_inner` starts when `os_safe_call(f_outer, A, pa)`
is running, with its frame at `addr_outer`, and `f_outer`, after doing
`before_inner`, has called `os_safe_call(f_inner, B, pb)`, with its frame at
`addr_inner`. -/
def nested_inner_start (w0 : SafeCallState) (A pa addr_outer : Nat)
    (before_inner : SafeCallState → SafeCallState) (B pb addr_inner : Nat) : SafeCallState :=
  (os_safe_call_enter B pb addr_inner
    (before_inner (os_safe_call_enter A pa addr_outer w0).1)).1

/-- The state of the run of `f_inner` (see `nested_inner_start`) after
`f_inner` has itself called `os_safe_call(g, C, pc)`, with its frame at
`addr_own`, for a `g` that does nothing, and that call has returned. -/
def nested_inner_after_call (w0 : SafeCallState) (A pa addr_outer : Nat)
    (before_inner : SafeCallState → SafeCallState) (B pb addr_inner : Nat)
    (C pc addr_own : Nat) : SafeCallState :=
  os_safe_call (fun _ v => v) C pc addr_own
    (nested_inner_start w0 A pa addr_outer before_inner B pb addr_inner)

/-- A pool for examples whose free list holds the entity 0 alone. -/
def one_free_pool : MAC_Pool :=
  { mac_entity_buffer := fun _ => MAC_Entity.zero, mac_entity_free := some 0 }

/-- A layout for examples: the buffer at address 4096, entities of 80 bytes. -/
def example_layout : MAC_Layout :=
  { buffer_addr := 4096, entity_size := 80,
    buffer_addr_pos := by decide, entity_size_pos := by decide,
    buffer_fits := by decide }

/-- The invariant of the pool under the caller's contract: the free list
ends in the null link, no allocated entity is on it, no entity is allocated
twice, and the allocated entities and the free list together count
`mac_entity_buffer_count` entities. -/
def pool_inv (r : PoolRun) : Prop :=
  ∃ l, free_chain r.pool.mac_entity_buffer r.pool.mac_entity_free l ∧
    (∀ e ∈ r.allocated, e ∉ l) ∧ r.allocated.Nodup ∧
    r.allocated.length + l.length = mac_entity_buffer_count

/-- The kinds agree with the free list: an entity of `mac_entity_buffer` is
on the free list exactly when its kind is `Null`. -/
def pool_kinds_inv (s : MAC_Pool) : Prop :=
  ∀ l, free_chain s.mac_entity_buffer s.mac_entity_free l →
    ∀ i, i < mac_entity_buffer_count →
      (i ∈ l ↔ (s.mac_entity_buffer i).kind = MAC_EntityKind.Null)

/-- The entries that the iterator flags exclude, in the words of the
property: the entries "." and "..", an entry whose name starts with '.' when
`SkipHiddenFiles` is set, a directory when `SkipFolders` is set, and an entry
that is not a directory when `SkipFiles` is set. -/
def iter_excluded (flags : OS_FileIterFlags) (entry : dirent) : Bool :=
  decide (entry.d_name = ['.']) || decide (entry.d_name = ['.', '.']) ||
    (decide (entry.d_name.head? = some '.') && flags.SkipHiddenFiles) ||
    (decide (entry.d_type = DT_DIR) && flags.SkipFolders) ||
    (decide (entry.d_type ≠ DT_DIR) && flags.SkipFiles)

/-- The flags of an iterator that skips nothing. -/
def no_skip_flags : OS_FileIterFlags :=
  { SkipFolders := false, SkipFiles := false, SkipHiddenFiles := false, Done := false }

/-- A directory for examples, as `readdir` delivers it: ".", "..", and the
regular files "a" and "b". -/
def example_directory : List dirent :=
  [{ d_name := ['.'], d_type := 4 }, { d_name := ['.', '.'], d_type := 4 },
   { d_name := ['a'], d_type := 8 }, { d_name := ['b'], d_type := 8 }]

/-! ## Lemmas on the free list -/

theorem buffer_set_same (buf : Nat → MAC_Entity) (i : Nat) (e : MAC_Entity) :
    buffer_set buf i e i = e := by
  simp [buffer_set]

theorem buffer_set_other (buf : Nat → MAC_Entity) (i j : Nat) (e : MAC_Entity) (h : j ≠ i) :
    buffer_set buf i e j = buf j := by
  simp [buffer_set, h]

theorem free_chain_congr (buf buf2 : Nat → MAC_Entity) :
    ∀ (l : List Nat) (p : Option Nat), (∀ i ∈ l, (buf2 i).next = (buf i).next) →
      free_chain buf p l → free_chain buf2 p l := by
  intro l
  induction l with
  | nil => intro p _ h; exact h
  | cons i l ih =>
    intro p hn h
    refine ⟨h.1, ?_⟩
    rw [hn i (List.mem_cons_self i l)]
    exact ih _ (fun j hj => hn j (List.mem_cons_of_mem i hj)) h.2

theorem free_chain_unique (buf : Nat → MAC_Entity) :
    ∀ (l1 l2 : List Nat) (p : Option Nat),
      free_chain buf p l1 → free_chain buf p l2 → l1 = l2 := by
  intro l1
  induction l1 with
  | nil =>
    intro l2 p h1 h2
    cases l2 with
    | nil => rfl
    | cons j l2 =>
      have h1n : p = none := h1
      have h2s : p = some j := h2.1
      rw [h1n] at h2s
      cases h2s
  | cons i l1 ih =>
    intro l2 p h1 h2
    cases l2 with
    | nil =>
      have h2n : p = none := h2
      have h1s : p = some i := h1.1
      rw [h2n] at h1s
      cases h1s
    | cons j l2 =>
      have e1 : p = some i := h1.1
      have e2 : p = some j := h2.1
      have hij : i = j := by
        rw [e1] at e2
        exact Option.some.inj e2
      subst hij
      rw [ih l2 _ h1.2 h2.2]

theorem free_chain_suffix (buf : Nat → MAC_Entity) :
    ∀ (a l : List Nat) (p : Option Nat), free_chain buf p (a ++ l) → ∃ q, free_chain buf q l := by
  intro a
  induction a with
  | nil => intro l p h; exact ⟨p, h⟩
  | cons i a ih =>
    intro l p h
    exact ih l _ h.2

theorem free_chain_head_not_mem (buf : Nat → MAC_Entity) (i : Nat) (l : List Nat)
    (p : Option Nat) (h : free_chain buf p (i :: l)) : i ∉ l := by
  intro hmem
  obtain ⟨a, b, hab⟩ := List.append_of_mem hmem
  have hsuf : ∃ q, free_chain buf q (i :: b) := by
    apply free_chain_suffix buf a (i :: b) (buf i).next
    rw [← hab]
    exact h.2
  obtain ⟨q, hq⟩ := hsuf
  have hb : free_chain buf (buf i).next b := hq.2
  have hl : free_chain buf (buf i).next l := h.2
  have hbl : b = l := free_chain_unique buf b l _ hb hl
  have hlen : l.length = a.length + (b.length + 1) := by
    rw [hab]
    simp
  rw [hbl] at hlen
  omega

theorem free_chain_nodup (buf : Nat → MAC_Entity) :
    ∀ (l : List Nat) (p : Option Nat), free_chain buf p l → l.Nodup := by
  intro l
  induction l with
  | nil => intro _ _; exact List.nodup_nil
  | cons i l ih =>
    intro p h
    exact List.nodup_cons.mpr ⟨free_chain_head_not_mem buf i l p h, ih _ h.2⟩

theorem free_list_walk_of_chain (buf : Nat → MAC_Entity) :
    ∀ (l : List Nat) (fuel : Nat) (p : Option Nat), free_chain buf p l → l.length ≤ fuel →
      free_list_walk fuel buf p = some l := by
  intro l
  induction l with
  | nil =>
    intro fuel p h _
    have hp : p = none := h
    subst hp
    cases fuel <;> rfl
  | cons i l ih =>
    intro fuel p h hlen
    have hp : p = some i := h.1
    subst hp
    cases fuel with
    | zero => simp at hlen
    | succ fuel =>
      have hl : l.length ≤ fuel := by
        simp only [List.length_cons] at hlen
        omega
      simp [free_list_walk, ih fuel _ h.2 hl]

theorem free_chain_of_walk (buf : Nat → MAC_Entity) :
    ∀ (fuel : Nat) (p : Option Nat) (l : List Nat), free_list_walk fuel buf p = some l →
      free_chain buf p l ∧ l.length ≤ fuel := by
  intro fuel
  induction fuel with
  | zero =>
    intro p l h
    cases p with
    | none =>
      simp [free_list_walk] at h
      subst h
      exact ⟨rfl, Nat.le_refl _⟩
    | some i => simp [free_list_walk] at h
  | succ fuel ih =>
    intro p l h
    cases p with
    | none =>
      simp [free_list_walk] at h
      subst h
      exact ⟨rfl, Nat.zero_le _⟩
    | some i =>
      simp only [free_list_walk, Option.map_eq_some'] at h
      obtain ⟨l2, hl2, hcons⟩ := h
      subst hcons
      have := ih _ _ hl2
      exact ⟨⟨rfl, this.1⟩, by simp only [List.length_cons]; omega⟩

/-! ## Lemmas on `os_init` -/

theorem os_init_loop_spec :
    ∀ (iters ptr : Nat) (buf : Nat → MAC_Entity),
      (os_init_loop iters ptr buf).1 = ptr + iters ∧
      ∀ j, (os_init_loop iters ptr buf).2 j =
        if ptr ≤ j ∧ j < ptr + iters then { buf j with next := some (j + 1) } else buf j := by
  intro iters
  induction iters with
  | zero =>
    intro ptr buf
    refine ⟨rfl, ?_⟩
    intro j
    have h1 : ¬ (ptr ≤ j ∧ j < ptr + 0) := by omega
    rw [if_neg h1]
    rfl
  | succ iters ih =>
    intro ptr buf
    have h := ih (ptr + 1) (buffer_set buf ptr { buf ptr with next := some (ptr + 1) })
    refine ⟨?_, ?_⟩
    · simp only [os_init_loop]
      rw [h.1]
      omega
    · intro j
      simp only [os_init_loop]
      rw [h.2 j]
      by_cases hj : j = ptr
      · subst hj
        have h1 : ¬ (j + 1 ≤ j ∧ j < j + 1 + iters) := by omega
        have h2 : j ≤ j ∧ j < j + (iters + 1) := by omega
        rw [if_neg h1, if_pos h2, buffer_set_same]
      · rw [buffer_set_other _ _ _ _ hj]
        by_cases hr : ptr + 1 ≤ j ∧ j < ptr + 1 + iters
        · have h2 : ptr ≤ j ∧ j < ptr + (iters + 1) := by omega
          rw [if_pos hr, if_pos h2]
        · have h2 : ¬ (ptr ≤ j ∧ j < ptr + (iters + 1)) := by omega
          rw [if_neg hr, if_neg h2]

theorem os_init_pool_entity (count j : Nat) :
    (os_init_pool count).mac_entity_buffer j =
      { MAC_Entity.zero with next := if j + 1 < count then some (j + 1) else none } := by
  have h := os_init_loop_spec (count - 1) 0 (fun _ => MAC_Entity.zero)
  simp only [os_init_pool]
  rw [h.1]
  by_cases hj : j = 0 + (count - 1)
  · rw [hj, buffer_set_same, h.2]
    have h1 : ¬ (0 ≤ 0 + (count - 1) ∧ 0 + (count - 1) < 0 + (count - 1)) := by omega
    have h2 : ¬ (0 + (count - 1) + 1 < count) := by omega
    rw [if_neg h1, if_neg h2]
  · rw [buffer_set_other _ _ _ _ hj, h.2]
    by_cases hlt : j + 1 < count
    · have h1 : 0 ≤ j ∧ j < 0 + (count - 1) := by omega
      rw [if_pos h1, if_pos hlt]
    · have h1 : ¬ (0 ≤ j ∧ j < 0 + (count - 1)) := by omega
      rw [if_neg h1, if_neg hlt]
      rfl

theorem os_init_pool_chain (count : Nat) :
    ∀ (m i : Nat), i + m + 1 = count →
      free_chain (os_init_pool count).mac_entity_buffer (some i) (List.range' i (m + 1)) := by
  intro m
  induction m with
  | zero =>
    intro i hi
    refine ⟨rfl, ?_⟩
    rw [os_init_pool_entity]
    have h1 : ¬ (i + 1 < count) := by omega
    simp only [if_neg h1]
    rfl
  | succ m ih =>
    intro i hi
    refine ⟨rfl, ?_⟩
    rw [os_init_pool_entity]
    have h1 : i + 1 < count := by omega
    simp only [if_pos h1]
    exact ih (i + 1) (by omega)

theorem os_init_free_chain (before : MAC_Pool) :
    free_chain (os_init before).mac_entity_buffer (os_init before).mac_entity_free
      (List.range' 0 mac_entity_buffer_count) := by
  have h := os_init_pool_chain mac_entity_buffer_count 1023 0 (by decide)
  exact h

/-! ## Lemmas on `mac_alloc_entity` and `mac_free_entity` -/

theorem mac_alloc_entity_some (s : MAC_Pool) (kind : MAC_EntityKind) (e : Nat)
    (h : s.mac_entity_free = some e) :
    mac_alloc_entity s kind =
      some ({ mac_entity_buffer :=
                buffer_set s.mac_entity_buffer e { s.mac_entity_buffer e with kind := kind },
              mac_entity_free := (s.mac_entity_buffer e).next }, e) := by
  simp [mac_alloc_entity, Assert, h, SLLStackPop]

theorem mac_alloc_entity_none (s : MAC_Pool) (kind : MAC_EntityKind)
    (h : s.mac_entity_free = none) : mac_alloc_entity s kind = none := by
  simp [mac_alloc_entity, Assert, h]

theorem buffer_set_field_next (buf : Nat → MAC_Entity) (e j : Nat) (x : MAC_Entity)
    (hx : x.next = (buf e).next) : (buffer_set buf e x j).next = (buf j).next := by
  by_cases hj : j = e
  · subst hj
    rw [buffer_set_same, hx]
  · rw [buffer_set_other _ _ _ _ hj]

theorem mac_alloc_entity_chain (s : MAC_Pool) (kind : MAC_EntityKind) (e : Nat) (l : List Nat)
    (h : free_chain s.mac_entity_buffer s.mac_entity_free (e :: l)) :
    ∃ s1, mac_alloc_entity s kind = some (s1, e) ∧
      free_chain s1.mac_entity_buffer s1.mac_entity_free l ∧
      (∀ j, (s1.mac_entity_buffer j).next = (s.mac_entity_buffer j).next) := by
  have hfree : s.mac_entity_free = some e := h.1
  refine ⟨_, mac_alloc_entity_some s kind e hfree, ?_, ?_⟩
  · apply free_chain_congr s.mac_entity_buffer
    · intro i _
      exact buffer_set_field_next _ _ _ _ rfl
    · exact h.2
  · intro j
    exact buffer_set_field_next _ _ _ _ rfl

theorem mac_free_entity_buffer (s : MAC_Pool) (e j : Nat) :
    (mac_free_entity s e).mac_entity_buffer j =
      if j = e then
        { s.mac_entity_buffer e with kind := MAC_EntityKind.Null, next := s.mac_entity_free }
      else s.mac_entity_buffer j := by
  by_cases hj : j = e
  · subst hj
    simp [mac_free_entity, SLLStackPush, buffer_set]
  · simp [mac_free_entity, SLLStackPush, buffer_set, hj]

theorem mac_free_entity_free (s : MAC_Pool) (e : Nat) :
    (mac_free_entity s e).mac_entity_free = some e := rfl

theorem mac_free_entity_chain (s : MAC_Pool) (e : Nat) (l : List Nat)
    (h : free_chain s.mac_entity_buffer s.mac_entity_free l) (he : e ∉ l) :
    free_chain (mac_free_entity s e).mac_entity_buffer (mac_free_entity s e).mac_entity_free
      (e :: l) := by
  refine ⟨rfl, ?_⟩
  have hnext : ((mac_free_entity s e).mac_entity_buffer e).next = s.mac_entity_free := by
    rw [mac_free_entity_buffer, if_pos rfl]
  rw [hnext]
  apply free_chain_congr s.mac_entity_buffer
  · intro i hi
    have hie : i ≠ e := by
      intro hie
      subst hie
      exact he hi
    rw [mac_free_entity_buffer, if_neg hie]
  · exact h

theorem pool_start_inv (before : MAC_Pool) : pool_inv (pool_start before) := by
  refine ⟨List.range' 0 mac_entity_buffer_count, os_init_free_chain before, ?_, ?_, ?_⟩
  · intro e he
    simp [pool_start] at he
  · simp [pool_start]
  · simp [pool_start]

theorem pool_call_inv (r r1 : PoolRun) (c : PoolCall) (hinv : pool_inv r)
    (h : pool_call r c = some r1) : pool_inv r1 := by
  obtain ⟨l, hchain, hdisj, hnodup, hcount⟩ := hinv
  cases c with
  | alloc kind =>
    cases l with
    | nil =>
      have hnone : r.pool.mac_entity_free = none := hchain
      simp [pool_call, mac_alloc_entity_none _ _ hnone] at h
    | cons e l =>
      obtain ⟨s1, halloc, hchain1, _⟩ := mac_alloc_entity_chain r.pool kind e l hchain
      simp only [pool_call, halloc, Option.some.injEq] at h
      subst h
      have hel : e ∉ l := free_chain_head_not_mem _ e l _ hchain
      refine ⟨l, hchain1, ?_, ?_, ?_⟩
      · intro x hx
        rcases List.mem_cons.mp hx with hxe | hxa
        · rw [hxe]
          exact hel
        · intro hxl
          exact hdisj x hxa (List.mem_cons_of_mem e hxl)
      · refine List.nodup_cons.mpr ⟨?_, hnodup⟩
        intro hea
        exact hdisj e hea (List.mem_cons_self e l)
      · simp only [List.length_cons] at hcount ⊢
        omega
  | free entity =>
    by_cases hmem : entity ∈ r.allocated
    · simp only [pool_call, if_pos hmem, Option.some.injEq] at h
      subst h
      refine ⟨entity :: l, mac_free_entity_chain r.pool entity l hchain (hdisj entity hmem),
        ?_, ?_, ?_⟩
      · intro x hx
        have hxa : x ∈ r.allocated := List.mem_of_mem_erase hx
        have hne : x ≠ entity := by
          intro hxe
          rw [hxe] at hx
          exact (List.Nodup.mem_erase_iff hnodup).mp hx |>.1 rfl
        intro hxl
        rcases List.mem_cons.mp hxl with h1 | h2
        · exact hne h1
        · exact hdisj x hxa h2
      · exact List.Nodup.erase entity hnodup
      · have hlen := List.length_erase_of_mem hmem
        have hpos : 0 < r.allocated.length := List.length_pos_of_mem hmem
        simp only [List.length_cons]
        rw [hlen]
        omega
    · simp [pool_call, hmem] at h

theorem pool_calls_inv :
    ∀ (calls : List PoolCall) (r r1 : PoolRun), pool_inv r →
      pool_calls r calls = some r1 → pool_inv r1 := by
  intro calls
  induction calls with
  | nil =>
    intro r r1 hinv h
    simp only [pool_calls, Option.some.injEq] at h
    subst h
    exact hinv
  | cons c cs ih =>
    intro r r1 hinv h
    simp only [pool_calls] at h
    cases hc : pool_call r c with
    | none => simp [hc] at h
    | some r2 =>
      simp only [hc] at h
      exact ih r2 r1 (pool_call_inv r r2 c hinv hc) h

theorem pool_calls_append :
    ∀ (a b : List PoolCall) (r r1 : PoolRun), pool_calls r (a ++ b) = some r1 →
      ∃ rm, pool_calls r a = some rm ∧ pool_calls rm b = some r1 := by
  intro a
  induction a with
  | nil =>
    intro b r r1 h
    exact ⟨r, rfl, h⟩
  | cons c cs ih =>
    intro b r r1 h
    simp only [List.cons_append, pool_calls] at h ⊢
    cases hc : pool_call r c with
    | none => simp [hc] at h
    | some r2 =>
      simp only [hc] at h ⊢
      exact ih b r2 r1 h

theorem pool_inv_count (r : PoolRun) (h : pool_inv r) :
    ∃ l, mac_free_list r.pool = some l ∧
      r.allocated.length + l.length = mac_entity_buffer_count := by
  obtain ⟨l, hchain, _, _, hcount⟩ := h
  refine ⟨l, ?_, hcount⟩
  apply free_list_walk_of_chain _ _ _ _ hchain
  omega

theorem alloc_all_chain :
    ∀ (kinds : List MAC_EntityKind) (s : MAC_Pool) (l : List Nat),
      free_chain s.mac_entity_buffer s.mac_entity_free l → kinds.length ≤ l.length →
      ∃ s1, alloc_all kinds s = some (s1, l.take kinds.length) ∧
        free_chain s1.mac_entity_buffer s1.mac_entity_free (l.drop kinds.length) := by
  intro kinds
  induction kinds with
  | nil =>
    intro s l h _
    exact ⟨s, by simp [alloc_all], by simpa using h⟩
  | cons k ks ih =>
    intro s l h hlen
    cases l with
    | nil => simp at hlen
    | cons e l =>
      obtain ⟨s1, halloc, hchain1, _⟩ := mac_alloc_entity_chain s k e l h
      have hlen1 : ks.length ≤ l.length := by
        simp only [List.length_cons] at hlen
        omega
      obtain ⟨s2, hall, hchain2⟩ := ih s1 l hchain1 hlen1
      refine ⟨s2, ?_, ?_⟩
      · simp [alloc_all, halloc, hall]
      · simpa using hchain2

theorem IntFromPtr_entity (lay : MAC_Layout) (e : Nat) (he : e < mac_entity_buffer_count) :
    IntFromPtr lay (some e) = lay.buffer_addr + e * lay.entity_size ∧
    IntFromPtr lay (some e) ≠ 0 ∧
    PtrFromInt lay (IntFromPtr lay (some e)) = some e := by
  have hpos := lay.buffer_addr_pos
  have hsz := lay.entity_size_pos
  have hfit := lay.buffer_fits
  have hmul : (e + 1) * lay.entity_size ≤ mac_entity_buffer_count * lay.entity_size :=
    Nat.mul_le_mul_right _ he
  have hlt : lay.buffer_addr + e * lay.entity_size < 2 ^ 64 := by
    rw [Nat.add_mul, Nat.one_mul] at hmul
    omega
  have heq : IntFromPtr lay (some e) = lay.buffer_addr + e * lay.entity_size := by
    simp only [IntFromPtr]
    exact Nat.mod_eq_of_lt hlt
  refine ⟨heq, ?_, ?_⟩
  · rw [heq]
    omega
  · rw [heq]
    have hne : lay.buffer_addr + e * lay.entity_size ≠ 0 := by omega
    simp only [PtrFromInt, if_neg hne, Nat.add_sub_cancel_left]
    rw [Nat.mul_div_cancel _ hsz]

theorem os_launch_thread_not_minus_one (lay : MAC_Layout) (s : MAC_Pool) (e func ptr : Nat)
    (pthread_result : Int) (native_thread : Nat)
    (hfree : s.mac_entity_free = some e) (hres : pthread_result ≠ -1) :
    ∃ s1, os_launch_thread lay s func ptr pthread_result native_thread =
        some (s1, { u64_0 := IntFromPtr lay (some e) }) ∧
      s1.mac_entity_free = (s.mac_entity_buffer e).next ∧
      (∀ j, (s1.mac_entity_buffer j).next = (s.mac_entity_buffer j).next) ∧
      (s1.mac_entity_buffer e).kind = MAC_EntityKind.Thread ∧
      (s1.mac_entity_buffer e).reference_mask = 0x3 := by
  simp only [os_launch_thread, mac_alloc_entity_some s _ e hfree, if_neg hres]
  refine ⟨_, rfl, ?_, ?_, ?_, ?_⟩
  · split <;> rfl
  · intro j
    by_cases hj : j = e
    · subst hj
      split <;> simp [buffer_set]
    · split <;> simp [buffer_set, hj]
  · split <;> simp [buffer_set]
  · split <;> simp [buffer_set]

theorem os_mutex_alloc_not_minus_one (lay : MAC_Layout) (s : MAC_Pool) (e : Nat)
    (pthread_result : Int) (native_mutex : Nat)
    (hfree : s.mac_entity_free = some e) (hres : pthread_result ≠ -1) :
    ∃ s1, os_mutex_alloc lay s pthread_result native_mutex =
        some (s1, { u64_0 := IntFromPtr lay (some e) }) ∧
      s1.mac_entity_free = (s.mac_entity_buffer e).next ∧
      (∀ j, (s1.mac_entity_buffer j).next = (s.mac_entity_buffer j).next) ∧
      (s1.mac_entity_buffer e).kind = MAC_EntityKind.Mutex := by
  simp only [os_mutex_alloc, mac_alloc_entity_some s _ e hfree, if_neg hres]
  refine ⟨_, rfl, ?_, ?_, ?_⟩
  · split <;> rfl
  · intro j
    by_cases hj : j = e
    · subst hj
      split <;> simp [buffer_set]
    · split <;> simp [buffer_set, hj]
  · split <;> simp [buffer_set]

theorem os_condition_variable_alloc_not_minus_one (lay : MAC_Layout) (s : MAC_Pool) (e : Nat)
    (pthread_result : Int) (native_cond : Nat)
    (hfree : s.mac_entity_free = some e) (hres : pthread_result ≠ -1) :
    ∃ s1, os_condition_variable_alloc lay s pthread_result native_cond =
        some (s1, { u64_0 := IntFromPtr lay (some e) }) ∧
      s1.mac_entity_free = (s.mac_entity_buffer e).next ∧
      (∀ j, (s1.mac_entity_buffer j).next = (s.mac_entity_buffer j).next) ∧
      (s1.mac_entity_buffer e).kind = MAC_EntityKind.ConditionVariable := by
  simp only [os_condition_variable_alloc, mac_alloc_entity_some s _ e hfree, if_neg hres]
  refine ⟨_, rfl, ?_, ?_, ?_⟩
  · split <;> rfl
  · intro j
    by_cases hj : j = e
    · subst hj
      split <;> simp [buffer_set]
    · split <;> simp [buffer_set, hj]
  · split <;> simp [buffer_set]

theorem land_facts :
    (3 : Nat) &&& 4294967293 = 1 ∧ (3 : Nat) &&& 4294967294 = 2 ∧ (1 : Nat) &&& 2 = 0 ∧
    (2 : Nat) &&& 1 = 0 ∧ (3 : Nat) &&& 1 = 1 ∧ (3 : Nat) &&& 2 = 2 := by
  decide

theorem free_list_after_pop (s s1 : MAC_Pool) (e : Nat) (l : List Nat)
    (hlist : mac_free_list s = some (e :: l))
    (hfree : s1.mac_entity_free = (s.mac_entity_buffer e).next)
    (hnext : ∀ j, (s1.mac_entity_buffer j).next = (s.mac_entity_buffer j).next) :
    mac_free_list s1 = some l ∧ e ∉ l := by
  obtain ⟨hchain, hlen⟩ := free_chain_of_walk _ _ _ _ hlist
  have hel : e ∉ l := free_chain_head_not_mem _ e l _ hchain
  refine ⟨?_, hel⟩
  apply free_list_walk_of_chain
  · rw [hfree]
    exact free_chain_congr s.mac_entity_buffer _ l _ (fun i _ => hnext i) hchain.2
  · simp only [List.length_cons] at hlen
    omega

/-- What the failure branch does when it is taken: with the return value -1
the entity is released, so it is the head of the free list again with kind
`Null`, and the handle is null. -/
theorem os_mutex_alloc_minus_one (lay : MAC_Layout) (s : MAC_Pool) (e : Nat) (l : List Nat)
    (native_mutex : Nat) (hlist : mac_free_list s = some (e :: l)) :
    ∃ s1 h, os_mutex_alloc lay s (-1) native_mutex = some (s1, h) ∧ h.u64_0 = 0 ∧
      (s1.mac_entity_buffer e).kind = MAC_EntityKind.Null ∧
      mac_free_list s1 = some (e :: l) := by
  obtain ⟨hchain, hlen⟩ := free_chain_of_walk _ _ _ _ hlist
  have hfree : s.mac_entity_free = some e := hchain.1
  have hel : e ∉ l := free_chain_head_not_mem _ e l _ hchain
  have hne : ¬ ((-1 : Int) = 0) := by decide
  simp only [os_mutex_alloc, mac_alloc_entity_some s _ e hfree, if_neg hne, if_pos]
  refine ⟨_, _, rfl, rfl, ?_, ?_⟩
  · rw [mac_free_entity_buffer, if_pos rfl]
  · apply free_list_walk_of_chain _ _ _ _ _ hlen
    apply mac_free_entity_chain _ e l _ hel
    exact free_chain_congr s.mac_entity_buffer _ l _
      (fun i _ => buffer_set_field_next _ _ _ _ rfl) hchain.2

/-! ## Lemmas on the safe-call chain -/

theorem os_safe_call_enter_chain (fail_handler ptr chain_addr : Nat) (w : SafeCallState) :
    (os_safe_call_enter fail_handler ptr chain_addr w).1.mac_safe_call_chain = some chain_addr ∧
    (os_safe_call_enter fail_handler ptr chain_addr w).1.frames chain_addr =
      { next := w.mac_safe_call_chain, fail_handler := fail_handler, ptr := ptr } := by
  simp [os_safe_call_enter, install_handlers, signals_to_handle, sigaction]

theorem os_safe_call_enter_table (fail_handler ptr chain_addr : Nat) (w : SafeCallState)
    (n : Int) :
    (os_safe_call_enter fail_handler ptr chain_addr w).1.signal_table n =
      if n ∈ signals_to_handle then
        { sa_handler := SigHandler.mac_safe_call_sig_handler, sa_mask := 0, sa_flags := 0 }
      else w.signal_table n := by
  simp only [os_safe_call_enter, install_handlers, signals_to_handle, sigaction, SIGILL, SIGFPE,
    SIGSEGV, SIGBUS, SIGTRAP, List.mem_cons, List.mem_singleton, List.not_mem_nil, or_false]
  by_cases h1 : n = 4 <;> by_cases h2 : n = 8 <;> by_cases h3 : n = 11 <;>
    by_cases h4 : n = 10 <;> by_cases h5 : n = 5 <;> simp [h1, h2, h3, h4, h5]

theorem os_safe_call_leave_chain (og_act : List SigAction) (w : SafeCallState) :
    (os_safe_call_leave og_act w).mac_safe_call_chain = w.mac_safe_call_chain := by
  have h : ∀ (sigs : List Int) (acts : List SigAction) (w : SafeCallState),
      (restore_handlers sigs acts w).mac_safe_call_chain = w.mac_safe_call_chain := by
    intro sigs
    induction sigs with
    | nil => intro acts w; rfl
    | cons sig sigs ih =>
      intro acts w
      cases acts with
      | nil => rfl
      | cons act acts =>
        simp only [restore_handlers]
        rw [ih]
        rfl
  exact h _ _ _

theorem os_safe_call_signal_table (func : Nat → SafeCallState → SafeCallState)
    (fail_handler ptr chain_addr : Nat) (w : SafeCallState)
    (hfunc : ∀ p v, (func p v).signal_table = v.signal_table) :
    (os_safe_call func fail_handler ptr chain_addr w).signal_table = w.signal_table := by
  funext n
  simp only [os_safe_call, os_safe_call_enter, os_safe_call_leave, install_handlers,
    restore_handlers, signals_to_handle, sigaction, hfunc, SIGILL, SIGFPE, SIGSEGV, SIGBUS,
    SIGTRAP]
  by_cases h1 : n = 4 <;> by_cases h2 : n = 8 <;> by_cases h3 : n = 11 <;>
    by_cases h4 : n = 10 <;> by_cases h5 : n = 5 <;> simp [h1, h2, h3, h4, h5]

theorem sync_fetch_and_and_mask (s : MAC_Pool) (entity mask : Nat) :
    (sync_fetch_and_and s entity mask).2 = (s.mac_entity_buffer entity).reference_mask ∧
    ((sync_fetch_and_and s entity mask).1.mac_entity_buffer entity).reference_mask =
      (s.mac_entity_buffer entity).reference_mask &&& mask := by
  simp [sync_fetch_and_and, buffer_set]

theorem os_safe_call_leave_frames (og_act : List SigAction) (w : SafeCallState) :
    (os_safe_call_leave og_act w).frames = w.frames := by
  have h : ∀ (sigs : List Int) (acts : List SigAction) (w : SafeCallState),
      (restore_handlers sigs acts w).frames = w.frames := by
    intro sigs
    induction sigs with
    | nil => intro acts w; rfl
    | cons sig sigs ih =>
      intro acts w
      cases acts with
      | nil => rfl
      | cons act acts =>
        simp only [restore_handlers]
        rw [ih]
        rfl
  exact h _ _ _

/-- After an `os_safe_call` whose `func` does nothing has returned, the chain
head is the address of its frame, and the memory there still holds the
handler and pointer of that call. -/
theorem os_safe_call_returned_head (fail_handler ptr chain_addr : Nat) (w : SafeCallState) :
    (os_safe_call (fun _ v => v) fail_handler ptr chain_addr w).mac_safe_call_chain =
      some chain_addr ∧
    (os_safe_call (fun _ v => v) fail_handler ptr chain_addr w).frames chain_addr =
      { next := w.mac_safe_call_chain, fail_handler := fail_handler, ptr := ptr } := by
  obtain ⟨hhead, hframe⟩ := os_safe_call_enter_chain fail_handler ptr chain_addr w
  refine ⟨?_, ?_⟩
  · simp only [os_safe_call]
    rw [os_safe_call_leave_chain]
    exact hhead
  · simp only [os_safe_call]
    rw [os_safe_call_leave_frames]
    exact hframe

/-! ## Lemmas on the kinds of the pool -/

theorem pool_start_kinds_inv (before : MAC_Pool) : pool_kinds_inv (pool_start before).pool := by
  intro l hl i hi
  have hchain := os_init_free_chain before
  have hl2 : l = List.range' 0 mac_entity_buffer_count :=
    free_chain_unique _ _ _ _ hl hchain
  have hkind : ((pool_start before).pool.mac_entity_buffer i).kind = MAC_EntityKind.Null := by
    simp only [pool_start, os_init]
    rw [os_init_pool_entity]
    rfl
  rw [hl2]
  constructor
  · intro _
    exact hkind
  · intro _
    exact List.mem_range'_1.mpr ⟨Nat.zero_le _, by omega⟩

theorem pool_call_kinds_inv (r r1 : PoolRun) (c : PoolCall) (hinv : pool_inv r)
    (hk : pool_kinds_inv r.pool) (hc : c ≠ PoolCall.alloc MAC_EntityKind.Null)
    (h : pool_call r c = some r1) : pool_kinds_inv r1.pool := by
  obtain ⟨l, hchain, hdisj, _, _⟩ := hinv
  cases c with
  | alloc kind =>
    have hkind : kind ≠ MAC_EntityKind.Null := by
      intro hkn
      exact hc (by rw [hkn])
    cases l with
    | nil =>
      have hnone : r.pool.mac_entity_free = none := hchain
      simp [pool_call, mac_alloc_entity_none _ _ hnone] at h
    | cons e l =>
      have hfree : r.pool.mac_entity_free = some e := hchain.1
      have hel : e ∉ l := free_chain_head_not_mem _ e l _ hchain
      simp only [pool_call, mac_alloc_entity_some r.pool kind e hfree, Option.some.injEq] at h
      subst h
      intro l1 hl1 i hi
      have hchain1 : free_chain
          (buffer_set r.pool.mac_entity_buffer e
            { r.pool.mac_entity_buffer e with kind := kind })
          (r.pool.mac_entity_buffer e).next l :=
        free_chain_congr r.pool.mac_entity_buffer _ l _
          (fun j _ => buffer_set_field_next _ _ _ _ rfl) hchain.2
      have hl1l : l1 = l := free_chain_unique _ _ _ _ hl1 hchain1
      rw [hl1l]
      by_cases hie : i = e
      · subst hie
        simp only [buffer_set_same]
        constructor
        · intro hmem
          exact absurd hmem hel
        · intro hnull
          exact absurd hnull hkind
      · simp only [buffer_set_other _ _ _ _ hie]
        rw [← hk (e :: l) hchain i hi]
        simp [hie]
  | free entity =>
    by_cases hmem : entity ∈ r.allocated
    · simp only [pool_call, if_pos hmem, Option.some.injEq] at h
      subst h
      intro l1 hl1 i hi
      have hchain1 := mac_free_entity_chain r.pool entity l hchain (hdisj entity hmem)
      have hl1l : l1 = entity :: l := free_chain_unique _ _ _ _ hl1 hchain1
      rw [hl1l, mac_free_entity_buffer]
      by_cases hie : i = entity
      · subst hie
        simp
      · rw [if_neg hie, ← hk l hchain i hi]
        simp [hie]
    · simp [pool_call, hmem] at h

theorem pool_calls_kinds_inv :
    ∀ (calls : List PoolCall) (r r1 : PoolRun), pool_inv r → pool_kinds_inv r.pool →
      (∀ c ∈ calls, c ≠ PoolCall.alloc MAC_EntityKind.Null) →
      pool_calls r calls = some r1 → pool_inv r1 ∧ pool_kinds_inv r1.pool := by
  intro calls
  induction calls with
  | nil =>
    intro r r1 hinv hk _ h
    simp only [pool_calls, Option.some.injEq] at h
    subst h
    exact ⟨hinv, hk⟩
  | cons c cs ih =>
    intro r r1 hinv hk hne h
    simp only [pool_calls] at h
    cases hc : pool_call r c with
    | none => simp [hc] at h
    | some r2 =>
      simp only [hc] at h
      exact ih r2 r1 (pool_call_inv r r2 c hinv hc)
        (pool_call_kinds_inv r r2 c hinv hk (hne c (List.mem_cons_self c cs)) hc)
        (fun d hd => hne d (List.mem_cons_of_mem c hd)) h

/-! ## Lemmas on the directory iterator -/

/-- The test of one entry in `os_file_iter_next` agrees with the exclusion
rule, for a name that holds no NUL character. -/
theorem usable_file_eq_not_excluded (flags : OS_FileIterFlags) (entry : dirent)
    (hnul : Char.ofNat 0 ∉ entry.d_name) :
    usable_file flags entry = !iter_excluded flags entry := by
  obtain ⟨name, type⟩ := entry
  simp only at hnul
  have hdot : ('.' : Char) ≠ Char.ofNat 0 := by decide
  cases flags with
  | mk sfo sfi shi done =>
    rcases name with _ | ⟨c, _ | ⟨d, _ | ⟨x, rest⟩⟩⟩
    · have h0 : c_char_at [] 0 ≠ '.' := by decide
      by_cases ht : type = DT_DIR <;> cases sfo <;> cases sfi <;>
        simp [usable_file, iter_excluded, h0, ht]
    · by_cases hc : c = '.'
      · subst hc
        by_cases ht : type = DT_DIR <;> cases sfo <;> cases sfi <;> cases shi <;>
          simp [usable_file, iter_excluded, c_char_at, ht]
      · by_cases ht : type = DT_DIR <;> cases sfo <;> cases sfi <;> cases shi <;>
          simp [usable_file, iter_excluded, c_char_at, ht, hc]
    · have hd : d ≠ Char.ofNat 0 := by
        intro h
        exact hnul (by simp [h])
      by_cases hc : c = '.'
      · subst hc
        by_cases hdd : d = '.'
        · subst hdd
          by_cases ht : type = DT_DIR <;> cases sfo <;> cases sfi <;> cases shi <;>
            simp [usable_file, iter_excluded, c_char_at, ht]
        · by_cases ht : type = DT_DIR <;> cases sfo <;> cases sfi <;> cases shi <;>
            simp [usable_file, iter_excluded, c_char_at, ht, hd, hdd]
      · by_cases ht : type = DT_DIR <;> cases sfo <;> cases sfi <;> cases shi <;>
          simp [usable_file, iter_excluded, c_char_at, ht, hc]
    · have hd : d ≠ Char.ofNat 0 := by
        intro h
        exact hnul (by simp [h])
      have hx : x ≠ Char.ofNat 0 := by
        intro h
        exact hnul (by simp [h])
      by_cases hc : c = '.'
      · subst hc
        by_cases hdd : d = '.'
        · subst hdd
          by_cases ht : type = DT_DIR <;> cases sfo <;> cases sfi <;> cases shi <;>
            simp [usable_file, iter_excluded, c_char_at, ht, hx]
        · by_cases ht : type = DT_DIR <;> cases sfo <;> cases sfi <;> cases shi <;>
            simp [usable_file, iter_excluded, c_char_at, ht, hd, hdd]
      · by_cases ht : type = DT_DIR <;> cases sfo <;> cases sfi <;> cases shi <;>
          simp [usable_file, iter_excluded, c_char_at, ht, hc]

/-! ## Lemmas on `switch` -/

theorem switch_on_no_label (value : Int) (result : String) :
    ∀ (cases : List SwitchCase), (∀ c ∈ cases, c.label ≠ value) →
      switch_on value result cases = result := by
  intro cases
  induction cases with
  | nil => intro _; rfl
  | cons c rest ih =>
    intro h
    have hne : ¬ (value = c.label) := fun hv => h c (List.mem_cons_self c rest) hv.symm
    simp only [switch_on, if_neg hne]
    exact ih (fun d hd => h d (List.mem_cons_of_mem c hd))

/-! ## The claims -/

/-- C2: starting from the pool that `os_init` produced, after every call of
a finite sequence of `mac_alloc_entity` and `mac_free_entity` calls that keeps
the caller's contract (free only an allocated entity, allocate only while the
free list is not empty), the number of allocated entities plus the number of
entities on the free list is 1024. -/
theorem pool_conservation (before : MAC_Pool) (calls : List PoolCall) (n : Nat)
    (h : (pool_calls (pool_start before) calls).isSome = true) :
    ∃ r l, pool_calls (pool_start before) (calls.take n) = some r ∧
      mac_free_list r.pool = some l ∧ r.allocated.length + l.length = 1024 := by
  obtain ⟨r1, hr1⟩ := Option.isSome_iff_exists.mp h
  rw [← List.take_append_drop n calls] at hr1
  obtain ⟨rm, hrm, _⟩ := pool_calls_append _ _ _ _ hr1
  have hinv : pool_inv rm := pool_calls_inv _ _ _ (pool_start_inv before) hrm
  obtain ⟨l, hl, hcount⟩ := pool_inv_count rm hinv
  exact ⟨rm, l, hrm, hl, hcount⟩

/-- C8: starting from the pool that `os_init` produced, 1024 calls of
`mac_alloc_entity` with no `mac_free_entity` in between all succeed and return
the entities 0, 1, ..., 1023 of `mac_entity_buffer` in this order, so pairwise
distinct ones; after them the free list is empty and the next call aborts
instead of returning an entity. -/
theorem pool_exhaustion (before : MAC_Pool) (kinds : List MAC_EntityKind)
    (kind : MAC_EntityKind) (hlen : kinds.length = 1024) :
    ∃ s es, alloc_all kinds (os_init before) = some (s, es) ∧
      es = List.range' 0 1024 ∧ es.length = 1024 ∧ es.Nodup ∧
      (∀ e ∈ es, e < mac_entity_buffer_count) ∧
      s.mac_entity_free = none ∧ mac_alloc_entity s kind = none ∧
      alloc_all (kinds ++ [kind]) (os_init before) = none := by
  have hchain := os_init_free_chain before
  have hle : kinds.length ≤ (List.range' 0 mac_entity_buffer_count).length := by
    simp [hlen, mac_entity_buffer_count]
  obtain ⟨s, hall, hrest⟩ := alloc_all_chain kinds (os_init before) _ hchain hle
  have htake : (List.range' 0 mac_entity_buffer_count).take kinds.length = List.range' 0 1024 := by
    rw [hlen]
    exact List.take_of_length_le (by simp [mac_entity_buffer_count])
  have hdrop : (List.range' 0 mac_entity_buffer_count).drop kinds.length = [] := by
    rw [hlen]
    exact List.drop_of_length_le (by simp [mac_entity_buffer_count])
  rw [htake] at hall
  rw [hdrop] at hrest
  have hfree : s.mac_entity_free = none := hrest
  have hnone : mac_alloc_entity s kind = none := mac_alloc_entity_none s kind hfree
  refine ⟨s, List.range' 0 1024, hall, rfl, by simp, List.nodup_range' 0 1024, ?_, hfree, hnone, ?_⟩
  · intro e he
    have := (List.mem_range'_1.mp he).2
    simp only [mac_entity_buffer_count]
    omega
  · have happ : ∀ (ks : List MAC_EntityKind) (s0 s1 : MAC_Pool) (es : List Nat),
        alloc_all ks s0 = some (s1, es) → mac_alloc_entity s1 kind = none →
        alloc_all (ks ++ [kind]) s0 = none := by
      intro ks
      induction ks with
      | nil =>
        intro s0 s1 es h0 h1
        simp only [alloc_all, Option.some.injEq, Prod.mk.injEq] at h0
        rw [← h0.1] at h1
        simp [alloc_all, h1]
      | cons k ks ih =>
        intro s0 s1 es h0 h1
        simp only [List.cons_append, alloc_all] at h0 ⊢
        cases ha : mac_alloc_entity s0 k with
        | none => rfl
        | some pr =>
          obtain ⟨s2, e⟩ := pr
          simp only [ha] at h0 ⊢
          cases hb : alloc_all ks s2 with
          | none => simp [hb] at h0
          | some pr2 =>
            obtain ⟨s3, es3⟩ := pr2
            simp only [hb, Option.some.injEq, Prod.mk.injEq] at h0
            have := ih s2 s1 es3 (by rw [hb, h0.1]) h1
            simp [this]
    exact happ kinds _ _ _ hall hnone

/-- C10: when the free list is not empty, `mac_alloc_entity(kind)` returns
the entity at the head of the free list, the new head is the former `next` of
that entity, the kind of the returned entity is `kind`, and nothing else
changes: the returned entity keeps its `next`, `reference_mask` and payload,
and every other entity is as it was. -/
theorem mac_alloc_entity_pops_head (s : MAC_Pool) (kind : MAC_EntityKind) (e : Nat)
    (h : s.mac_entity_free = some e) :
    ∃ s1, mac_alloc_entity s kind = some (s1, e) ∧
      s1.mac_entity_free = (s.mac_entity_buffer e).next ∧
      (s1.mac_entity_buffer e).kind = kind ∧
      s1.mac_entity_buffer e = { s.mac_entity_buffer e with kind := kind } ∧
      (s1.mac_entity_buffer e).next = (s.mac_entity_buffer e).next ∧
      (s1.mac_entity_buffer e).reference_mask = (s.mac_entity_buffer e).reference_mask ∧
      (s1.mac_entity_buffer e).thread_func = (s.mac_entity_buffer e).thread_func ∧
      (s1.mac_entity_buffer e).thread_ptr = (s.mac_entity_buffer e).thread_ptr ∧
      (s1.mac_entity_buffer e).thread_handle = (s.mac_entity_buffer e).thread_handle ∧
      (s1.mac_entity_buffer e).mutex = (s.mac_entity_buffer e).mutex ∧
      (s1.mac_entity_buffer e).cond = (s.mac_entity_buffer e).cond ∧
      ∀ j, j ≠ e → s1.mac_entity_buffer j = s.mac_entity_buffer j := by
  refine ⟨_, mac_alloc_entity_some s kind e h, rfl, ?_, ?_, ?_, ?_, ?_, ?_, ?_, ?_, ?_, ?_⟩
  all_goals first
    | (intro j hj; exact buffer_set_other _ _ _ _ hj)
    | simp [buffer_set]


/-- C1: for a thread entity whose `reference_mask` is 0b11, in each of the
two orders of the trampoline's completion and `os_release_thread_handle`,
the operation that runs first does not call `mac_free_entity` and the one
that runs second calls it once on the entity; and in every interleaving of
the atomic steps of the two operations, `mac_free_entity` is called exactly
once, on the entity, by the owner whose fetch-and-and took effect last. -/
theorem thread_entity_freed_once (s : MAC_Pool) (entity : Nat)
    (hmask : (s.mac_entity_buffer entity).reference_mask = 0x3) :
    ((mac_thread_base_finish s entity).2 = [] ∧
      (os_release_thread_entity (mac_thread_base_finish s entity).1 entity).2 = [entity]) ∧
    ((os_release_thread_entity s entity).2 = [] ∧
      (mac_thread_base_finish (os_release_thread_entity s entity).1 entity).2 = [entity]) ∧
    (∀ sched ∈ interleavings trampoline_steps handle_steps,
      ∃ o, last_clear sched = some o ∧
        (proto_run entity (proto_start s) sched).free_calls = [(o, entity)]) := by
  obtain ⟨e1, e2, e3, e4, e5, e6⟩ := land_facts
  refine ⟨⟨?_, ?_⟩, ⟨?_, ?_⟩, ?_⟩
  · simp [mac_thread_base_finish, mac_thread_base_clear, mac_thread_base_check,
      sync_fetch_and_and, hmask, e5]
  · simp [mac_thread_base_finish, mac_thread_base_clear, mac_thread_base_check,
      os_release_thread_entity, os_release_thread_handle_clear, os_release_thread_handle_check,
      sync_fetch_and_and, buffer_set, hmask, not_0x2, e5, e1, e3]
  · simp [os_release_thread_entity, os_release_thread_handle_clear,
      os_release_thread_handle_check, sync_fetch_and_and, hmask, e6]
  · simp [mac_thread_base_finish, mac_thread_base_clear, mac_thread_base_check,
      os_release_thread_entity, os_release_thread_handle_clear, os_release_thread_handle_check,
      sync_fetch_and_and, buffer_set, hmask, not_0x1, e6, e2, e4]
  · intro sched hsched
    simp [interleavings, trampoline_steps, handle_steps] at hsched
    rcases hsched with h | h | h | h | h | h <;> subst h
    all_goals
      simp [last_clear, proto_run, proto_step, proto_start, mac_thread_base_clear,
        mac_thread_base_check, os_release_thread_handle_clear, os_release_thread_handle_check,
        sync_fetch_and_and, buffer_set, hmask, not_0x1, not_0x2, e1, e2, e3, e4, e5, e6]

/-- The six interleavings of the atomic steps of the two operations. -/
theorem interleavings_thread_race :
    interleavings trampoline_steps handle_steps =
      [[ProtoStep.clear Owner.trampoline, ProtoStep.check Owner.trampoline,
        ProtoStep.clear Owner.handle, ProtoStep.check Owner.handle],
       [ProtoStep.clear Owner.trampoline, ProtoStep.clear Owner.handle,
        ProtoStep.check Owner.trampoline, ProtoStep.check Owner.handle],
       [ProtoStep.clear Owner.trampoline, ProtoStep.clear Owner.handle,
        ProtoStep.check Owner.handle, ProtoStep.check Owner.trampoline],
       [ProtoStep.clear Owner.handle, ProtoStep.clear Owner.trampoline,
        ProtoStep.check Owner.trampoline, ProtoStep.check Owner.handle],
       [ProtoStep.clear Owner.handle, ProtoStep.clear Owner.trampoline,
        ProtoStep.check Owner.handle, ProtoStep.check Owner.trampoline],
       [ProtoStep.clear Owner.handle, ProtoStep.check Owner.handle,
        ProtoStep.clear Owner.trampoline, ProtoStep.check Owner.trampoline]] := by
  simp [interleavings, trampoline_steps, handle_steps]

/-- C9: for a thread entity produced by a successful `os_launch_thread`
(`pthread_create` returned 0) from a pool whose free list ends in the null
link, after the completion of the trampoline alone, and likewise after
`os_release_thread_handle` alone, `mac_free_entity` has not been called, the
kind of the entity is still `Thread` and the entity is not on the free list. -/
theorem no_premature_release (lay : MAC_Layout) (s : MAC_Pool) (e : Nat) (l : List Nat)
    (func ptr native_thread : Nat)
    (hlist : mac_free_list s = some (e :: l)) (he : e < mac_entity_buffer_count) :
    ∃ s1 thread, os_launch_thread lay s func ptr 0 native_thread = some (s1, thread) ∧
      thread.u64_0 ≠ 0 ∧
      (s1.mac_entity_buffer e).kind = MAC_EntityKind.Thread ∧
      (s1.mac_entity_buffer e).reference_mask = 0x3 ∧
      ((mac_thread_base_finish s1 e).2 = [] ∧
        ((mac_thread_base_finish s1 e).1.mac_entity_buffer e).kind = MAC_EntityKind.Thread ∧
        mac_free_list (mac_thread_base_finish s1 e).1 = some l ∧ e ∉ l) ∧
      (∃ s2, os_release_thread_handle lay s1 thread = some (s2, []) ∧
        (s2.mac_entity_buffer e).kind = MAC_EntityKind.Thread ∧
        mac_free_list s2 = some l ∧ e ∉ l) := by
  obtain ⟨hchain, _⟩ := free_chain_of_walk _ _ _ _ hlist
  have hfree : s.mac_entity_free = some e := hchain.1
  obtain ⟨s1, hlaunch, hfree1, hnext1, hkind1, hmask1⟩ :=
    os_launch_thread_not_minus_one lay s e func ptr 0 native_thread hfree (by decide)
  obtain ⟨_, hnz, hround⟩ := IntFromPtr_entity lay e he
  obtain ⟨e1, e2, e3, e4, e5, e6⟩ := land_facts
  have hT : mac_thread_base_finish s1 e =
      ((sync_fetch_and_and s1 e not_0x2).1, []) := by
    simp [mac_thread_base_finish, mac_thread_base_clear, mac_thread_base_check,
      sync_fetch_and_and, hmask1, e5]
  have hR : os_release_thread_entity s1 e =
      ((sync_fetch_and_and s1 e not_0x1).1, []) := by
    simp [os_release_thread_entity, os_release_thread_handle_clear,
      os_release_thread_handle_check, sync_fetch_and_and, hmask1, e6]
  have hsync : ∀ mask, ((sync_fetch_and_and s1 e mask).1.mac_entity_buffer e).kind =
        MAC_EntityKind.Thread ∧
      (sync_fetch_and_and s1 e mask).1.mac_entity_free = (s.mac_entity_buffer e).next ∧
      ∀ j, ((sync_fetch_and_and s1 e mask).1.mac_entity_buffer j).next =
        (s.mac_entity_buffer j).next := by
    intro mask
    refine ⟨?_, ?_, ?_⟩
    · simp [sync_fetch_and_and, buffer_set, hkind1]
    · simp [sync_fetch_and_and, hfree1]
    · intro j
      rw [← hnext1 j]
      exact buffer_set_field_next _ _ _ _ rfl
  refine ⟨s1, _, hlaunch, hnz, hkind1, hmask1, ?_, ?_⟩
  · rw [hT]
    obtain ⟨hk, hf, hn⟩ := hsync not_0x2
    obtain ⟨hwalk, hnot⟩ := free_list_after_pop s _ e l hlist hf hn
    exact ⟨rfl, hk, hwalk, hnot⟩
  · refine ⟨(sync_fetch_and_and s1 e not_0x1).1, ?_, ?_⟩
    · simp only [os_release_thread_handle, hround, hR]
    · obtain ⟨hk, hf, hn⟩ := hsync not_0x1
      obtain ⟨hwalk, hnot⟩ := free_list_after_pop s _ e l hlist hf hn
      exact ⟨hk, hwalk, hnot⟩

/-- C4, evaluated where the code departs from it: on the pool that `os_init`
produced, when the native creation call fails with the error code `EAGAIN`
(35), each of `os_launch_thread`, `os_mutex_alloc` and
`os_condition_variable_alloc` returns a handle that is not null, the entity 0
that was just allocated keeps its kind, and the free list is the entities
1, ..., 1023: the entity is not back on it. -/
theorem creation_failure_keeps_entity (lay : MAC_Layout) (before : MAC_Pool)
    (func ptr native : Nat) :
    (∃ s1 h, os_launch_thread lay (os_init before) func ptr 35 native = some (s1, h) ∧
      h.u64_0 ≠ 0 ∧ (s1.mac_entity_buffer 0).kind = MAC_EntityKind.Thread ∧
      mac_free_list s1 = some (List.range' 1 1023)) ∧
    (∃ s1 h, os_mutex_alloc lay (os_init before) 35 native = some (s1, h) ∧
      h.u64_0 ≠ 0 ∧ (s1.mac_entity_buffer 0).kind = MAC_EntityKind.Mutex ∧
      mac_free_list s1 = some (List.range' 1 1023)) ∧
    (∃ s1 h, os_condition_variable_alloc lay (os_init before) 35 native = some (s1, h) ∧
      h.u64_0 ≠ 0 ∧ (s1.mac_entity_buffer 0).kind = MAC_EntityKind.ConditionVariable ∧
      mac_free_list s1 = some (List.range' 1 1023)) := by
  have hchain := os_init_free_chain before
  have hlist : mac_free_list (os_init before) = some (0 :: List.range' 1 1023) := by
    apply free_list_walk_of_chain _ _ _ _ hchain
    simp [mac_entity_buffer_count]
  have hfree : (os_init before).mac_entity_free = some 0 := rfl
  obtain ⟨_, hnz, _⟩ := IntFromPtr_entity lay 0 (by decide)
  refine ⟨?_, ?_, ?_⟩
  · obtain ⟨s1, hcall, hf, hn, hk, _⟩ :=
      os_launch_thread_not_minus_one lay (os_init before) 0 func ptr 35 native hfree (by decide)
    exact ⟨s1, _, hcall, hnz, hk, (free_list_after_pop _ s1 0 _ hlist hf hn).1⟩
  · obtain ⟨s1, hcall, hf, hn, hk⟩ :=
      os_mutex_alloc_not_minus_one lay (os_init before) 0 35 native hfree (by decide)
    exact ⟨s1, _, hcall, hnz, hk, (free_list_after_pop _ s1 0 _ hlist hf hn).1⟩
  · obtain ⟨s1, hcall, hf, hn, hk⟩ :=
      os_condition_variable_alloc_not_minus_one lay (os_init before) 0 35 native hfree (by decide)
    exact ⟨s1, _, hcall, hnz, hk, (free_list_after_pop _ s1 0 _ hlist hf hn).1⟩

/-- C3, evaluated where the code departs from it: `os_safe_call` has no pop
after its second loop. For a `func` that does nothing, whatever the state
before the call, `mac_safe_call_chain` after the call is the address of the
local `chain` of the call that has returned; called with an empty chain, the
head is not what it was before the call. -/
theorem os_safe_call_frame_not_popped :
    (∀ (w : SafeCallState) (fail_handler ptr chain_addr : Nat),
      (os_safe_call (fun _ v => v) fail_handler ptr chain_addr w).mac_safe_call_chain =
        some chain_addr) ∧
    safe_call_start.mac_safe_call_chain = none ∧
    (os_safe_call (fun _ v => v) 0 0 4096 safe_call_start).mac_safe_call_chain = some 4096 ∧
    (os_safe_call (fun _ v => v) 0 0 4096 safe_call_start).mac_safe_call_chain ≠
      safe_call_start.mac_safe_call_chain := by
  have h : ∀ (w : SafeCallState) (fail_handler ptr chain_addr : Nat),
      (os_safe_call (fun _ v => v) fail_handler ptr chain_addr w).mac_safe_call_chain =
        some chain_addr := by
    intro w fail_handler ptr chain_addr
    simp only [os_safe_call]
    rw [os_safe_call_leave_chain]
    exact (os_safe_call_enter_chain fail_handler ptr chain_addr w).1
  refine ⟨h, rfl, h _ _ _ _, ?_⟩
  rw [h]
  simp [safe_call_start]

/-- C5: for every initial signal table and every `func` that returns and
leaves the signal table as it found it, after `os_safe_call` returns the
action of every signal is the one registered before the call; this also holds
for a call made inside another `os_safe_call`, where the handlers of the outer
call are installed, and for the outer call whose `func` makes that call. -/
theorem os_safe_call_restores_signal_table (func : Nat → SafeCallState → SafeCallState)
    (fail_handler ptr chain_addr : Nat) (w : SafeCallState)
    (hfunc : ∀ p v, (func p v).signal_table = v.signal_table) :
    (∀ signum, (os_safe_call func fail_handler ptr chain_addr w).signal_table signum =
      w.signal_table signum) ∧
    (∀ (outer_handler outer_ptr outer_addr : Nat) (signum : Int),
      (os_safe_call func fail_handler ptr chain_addr
        (os_safe_call_enter outer_handler outer_ptr outer_addr w).1).signal_table signum =
      (os_safe_call_enter outer_handler outer_ptr outer_addr w).1.signal_table signum) ∧
    (∀ (outer_handler outer_ptr outer_addr : Nat) (signum : Int),
      (os_safe_call (fun _ v => os_safe_call func fail_handler ptr chain_addr v)
        outer_handler outer_ptr outer_addr w).signal_table signum = w.signal_table signum) := by
  refine ⟨?_, ?_, ?_⟩
  · intro signum
    rw [os_safe_call_signal_table func fail_handler ptr chain_addr w hfunc]
  · intro outer_handler outer_ptr outer_addr signum
    rw [os_safe_call_signal_table func fail_handler ptr chain_addr _ hfunc]
  · intro outer_handler outer_ptr outer_addr signum
    rw [os_safe_call_signal_table _ outer_handler outer_ptr outer_addr w]
    intro p v
    exact os_safe_call_signal_table func fail_handler ptr chain_addr v hfunc

/-- C6: `mac_safe_call_sig_handler` calls the `fail_handler` of the head
frame once, with the `ptr` of that frame, and then `abort()`, when the chain
has a head whose `fail_handler` is not null; it calls `abort()` and no
handler when the chain is empty or the `fail_handler` of the head is null. In
every case its last action is `abort()`. -/
theorem sig_handler_notifies_then_aborts (w : SafeCallState) (signum : Int) :
    (∀ chain, w.mac_safe_call_chain = some chain → (w.frames chain).fail_handler ≠ 0 →
      mac_safe_call_sig_handler w signum =
        [HandlerEvent.call (w.frames chain).fail_handler (w.frames chain).ptr,
         HandlerEvent.abort]) ∧
    (w.mac_safe_call_chain = none →
      mac_safe_call_sig_handler w signum = [HandlerEvent.abort]) ∧
    (∀ chain, w.mac_safe_call_chain = some chain → (w.frames chain).fail_handler = 0 →
      mac_safe_call_sig_handler w signum = [HandlerEvent.abort]) ∧
    (mac_safe_call_sig_handler w signum).getLast? = some HandlerEvent.abort := by
  refine ⟨?_, ?_, ?_, ?_⟩
  · intro chain hc hf
    simp [mac_safe_call_sig_handler, hc, hf]
  · intro hc
    simp [mac_safe_call_sig_handler, hc]
  · intro chain hc hf
    simp [mac_safe_call_sig_handler, hc, hf]
  · unfold mac_safe_call_sig_handler
    cases w.mac_safe_call_chain with
    | none => rfl
    | some chain =>
      by_cases hf : (w.frames chain).fail_handler = 0
      · simp [hf]
      · simp [hf]

/-- The nesting while `f_inner` leaves the chain alone: when
`os_safe_call(f_outer, A, pa)` is running and `f_outer` has called
`os_safe_call(f_inner, B, pb)` with `B` not null, the five fault signals are
trapped by `mac_safe_call_sig_handler` when `f_inner` starts, and in a state
`w` of the run of `f_inner` in which the chain head and the inner frame are
as `os_safe_call` set them, the handler calls `B` with `pb` and then
`abort()`. The condition on `w` is needed: it fails once `f_inner` has
returned from an `os_safe_call` of its own. -/
theorem nested_fault_reaches_inner_handler (w0 : SafeCallState)
    (A pa addr_outer B pb addr_inner : Nat) (before_inner : SafeCallState → SafeCallState)
    (w : SafeCallState) (signum : Int) (hB : B ≠ 0)
    (hchain : w.mac_safe_call_chain =
      (nested_inner_start w0 A pa addr_outer before_inner B pb addr_inner).mac_safe_call_chain)
    (hframe : w.frames addr_inner =
      (nested_inner_start w0 A pa addr_outer before_inner B pb addr_inner).frames addr_inner) :
    (∀ sig ∈ signals_to_handle,
      ((nested_inner_start w0 A pa addr_outer before_inner B pb addr_inner).signal_table
        sig).sa_handler = SigHandler.mac_safe_call_sig_handler) ∧
    mac_safe_call_sig_handler w signum = [HandlerEvent.call B pb, HandlerEvent.abort] ∧
    (∀ fn arg, HandlerEvent.call fn arg ∈ mac_safe_call_sig_handler w signum →
      fn = B ∧ arg = pb) ∧
    ((A, pa) ≠ (B, pb) → HandlerEvent.call A pa ∉ mac_safe_call_sig_handler w signum) := by
  obtain ⟨hhead, hfr⟩ := os_safe_call_enter_chain B pb addr_inner
    (before_inner (os_safe_call_enter A pa addr_outer w0).1)
  have hrun : mac_safe_call_sig_handler w signum =
      [HandlerEvent.call B pb, HandlerEvent.abort] := by
    simp only [nested_inner_start] at hchain hframe
    rw [hhead] at hchain
    rw [hfr] at hframe
    simp [mac_safe_call_sig_handler, hchain, hframe, hB]
  refine ⟨?_, hrun, ?_, ?_⟩
  · intro sig hsig
    simp only [nested_inner_start]
    rw [os_safe_call_enter_table, if_pos hsig]
  · intro fn arg hmem
    rw [hrun] at hmem
    simpa using hmem
  · intro hne hmem
    rw [hrun] at hmem
    simp at hmem
    exact hne (by rw [hmem.1, hmem.2])

/-- C11: for a pool whose free list ends in the null link and an entity `e`
that is not on it, `mac_free_entity(e)` sets the kind of `e` to `Null` and
makes `e` the head of the free list with `e.next` the previous head; the
`mac_alloc_entity(kind)` that follows returns `e` and leaves the free list as
it was before the release. -/
theorem mac_free_then_alloc_reuses (s : MAC_Pool) (e : Nat) (kind : MAC_EntityKind)
    (l : List Nat) (hlist : mac_free_list s = some l) (he : e ∉ l) :
    ((mac_free_entity s e).mac_entity_buffer e).kind = MAC_EntityKind.Null ∧
    (mac_free_entity s e).mac_entity_free = some e ∧
    ((mac_free_entity s e).mac_entity_buffer e).next = s.mac_entity_free ∧
    free_chain (mac_free_entity s e).mac_entity_buffer (mac_free_entity s e).mac_entity_free
      (e :: l) ∧
    ∃ s2, mac_alloc_entity (mac_free_entity s e) kind = some (s2, e) ∧
      s2.mac_entity_free = s.mac_entity_free ∧ mac_free_list s2 = some l := by
  obtain ⟨hchain, hlen⟩ := free_chain_of_walk _ _ _ _ hlist
  have hbuf : (mac_free_entity s e).mac_entity_buffer e =
      { s.mac_entity_buffer e with kind := MAC_EntityKind.Null, next := s.mac_entity_free } := by
    rw [mac_free_entity_buffer, if_pos rfl]
  have hchain1 := mac_free_entity_chain s e l hchain he
  obtain ⟨s2, halloc, hchain2, _⟩ := mac_alloc_entity_chain (mac_free_entity s e) kind e l hchain1
  refine ⟨by rw [hbuf], rfl, by rw [hbuf], hchain1, s2, halloc, ?_, ?_⟩
  · have hsome := mac_alloc_entity_some (mac_free_entity s e) kind e rfl
    rw [hsome] at halloc
    have hs2 := (Prod.mk.inj (Option.some.inj halloc)).1
    rw [← hs2, hbuf]
  · exact free_list_walk_of_chain _ _ _ _ hchain2 hlen

/-- C12, evaluated where the code departs from it: whatever the condition
variable, the mutex and the deadline, and whether or not the condition
variable is signaled before the deadline, `os_condition_variable_wait_` does
not return true; when `NotImplemented` lets it return, it returns false also
for a condition variable that is signaled before the deadline. -/
theorem os_condition_variable_wait_never_true (lay : MAC_Layout) (cv mutex : OS_Handle)
    (endt_us : Nat) :
    (∀ traps signaled, os_condition_variable_wait_ lay traps cv mutex endt_us signaled ≠
      some true) ∧
    os_condition_variable_wait_ lay false cv mutex endt_us true = some false ∧
    os_condition_variable_wait_ lay true cv mutex endt_us true = none := by
  refine ⟨?_, rfl, rfl⟩
  intro traps signaled
  cases traps <;> simp [os_condition_variable_wait_, NotImplemented]

/-- C13: in the state in which `os_safe_call` calls `func`, each of the
signals `SIGILL`, `SIGFPE`, `SIGSEGV`, `SIGBUS` and `SIGTRAP` has the action
whose handler is `mac_safe_call_sig_handler`, and every other signal has the
action it had before the call. -/
theorem os_safe_call_installs_handlers (func : Nat → SafeCallState → SafeCallState)
    (fail_handler ptr chain_addr : Nat) (w : SafeCallState) :
    os_safe_call func fail_handler ptr chain_addr w =
      os_safe_call_leave (os_safe_call_enter fail_handler ptr chain_addr w).2
        (func ptr (os_safe_call_enter fail_handler ptr chain_addr w).1) ∧
    (∀ signum, signum = SIGILL ∨ signum = SIGFPE ∨ signum = SIGSEGV ∨ signum = SIGBUS ∨
        signum = SIGTRAP →
      ((os_safe_call_enter fail_handler ptr chain_addr w).1.signal_table signum).sa_handler =
        SigHandler.mac_safe_call_sig_handler) ∧
    (∀ signum, signum ≠ SIGILL → signum ≠ SIGFPE → signum ≠ SIGSEGV → signum ≠ SIGBUS →
        signum ≠ SIGTRAP →
      (os_safe_call_enter fail_handler ptr chain_addr w).1.signal_table signum =
        w.signal_table signum) := by
  refine ⟨rfl, ?_, ?_⟩
  · intro signum hsig
    have hmem : signum ∈ signals_to_handle := by
      simp only [signals_to_handle, List.mem_cons, List.mem_singleton, List.not_mem_nil,
        or_false]
      exact hsig
    rw [os_safe_call_enter_table, if_pos hmem]
  · intro signum h1 h2 h3 h4 h5
    have hmem : signum ∉ signals_to_handle := by
      simp only [signals_to_handle, List.mem_cons, List.mem_singleton, List.not_mem_nil,
        or_false]
      intro h
      rcases h with h | h | h | h | h
      · exact h1 h
      · exact h2 h
      · exact h3 h
      · exact h4 h
      · exact h5 h
    rw [os_safe_call_enter_table, if_neg hmem]

/-- C14: for entities `e1` and `e2` of the pool, the handle that
`os_launch_thread`, `os_mutex_alloc` and `os_condition_variable_alloc` make
of `e1` (`IntFromPtr` into `u64[0]`) decodes to `e1` again (`PtrFromInt` of
`u64[0]`), as in `os_release_thread_handle`; so equal handles come from equal
entities, and distinct entities have distinct handles. -/
theorem handle_round_trip (lay : MAC_Layout) (e1 e2 : Nat)
    (h1 : e1 < mac_entity_buffer_count) (h2 : e2 < mac_entity_buffer_count) :
    PtrFromInt lay (IntFromPtr lay (some e1)) = some e1 ∧
    (IntFromPtr lay (some e1) = IntFromPtr lay (some e2) → e1 = e2) ∧
    (e1 ≠ e2 → IntFromPtr lay (some e1) ≠ IntFromPtr lay (some e2)) ∧
    (∀ (s : MAC_Pool) (func ptr native : Nat), s.mac_entity_free = some e1 →
      (∃ s1 h, os_launch_thread lay s func ptr 0 native = some (s1, h) ∧
        PtrFromInt lay h.u64_0 = some e1) ∧
      (∃ s1 h, os_mutex_alloc lay s 0 native = some (s1, h) ∧
        PtrFromInt lay h.u64_0 = some e1) ∧
      (∃ s1 h, os_condition_variable_alloc lay s 0 native = some (s1, h) ∧
        PtrFromInt lay h.u64_0 = some e1)) ∧
    (∀ (s : MAC_Pool), os_release_thread_handle lay s { u64_0 := IntFromPtr lay (some e1) } =
      some (os_release_thread_entity s e1)) := by
  obtain ⟨_, _, hr1⟩ := IntFromPtr_entity lay e1 h1
  obtain ⟨_, _, hr2⟩ := IntFromPtr_entity lay e2 h2
  have hinj : IntFromPtr lay (some e1) = IntFromPtr lay (some e2) → e1 = e2 := by
    intro h
    rw [h, hr2] at hr1
    exact (Option.some.inj hr1).symm
  refine ⟨hr1, hinj, fun hne h => hne (hinj h), ?_, ?_⟩
  · intro s func ptr native hfree
    refine ⟨?_, ?_, ?_⟩
    · obtain ⟨s1, hcall, _⟩ :=
        os_launch_thread_not_minus_one lay s e1 func ptr 0 native hfree (by decide)
      exact ⟨s1, _, hcall, hr1⟩
    · obtain ⟨s1, hcall, _⟩ := os_mutex_alloc_not_minus_one lay s e1 0 native hfree (by decide)
      exact ⟨s1, _, hcall, hr1⟩
    · obtain ⟨s1, hcall, _⟩ :=
        os_condition_variable_alloc_not_minus_one lay s e1 0 native hfree (by decide)
      exact ⟨s1, _, hcall, hr1⟩
  · intro s
    simp only [os_release_thread_handle, hr1]

/-- C15: in every pool reached from `os_init` by calls of `mac_alloc_entity`
with a kind other than `Null` and calls of `mac_free_entity` on allocated
entities, the free list ends in the null link, no entity is on it more than
once, and an entity of `mac_entity_buffer` is on it exactly when its kind is
`Null`. -/
theorem free_list_iff_kind_null (before : MAC_Pool) (calls : List PoolCall)
    (hne : ∀ c ∈ calls, c ≠ PoolCall.alloc MAC_EntityKind.Null)
    (h : (pool_calls (pool_start before) calls).isSome = true) :
    ∃ r l, pool_calls (pool_start before) calls = some r ∧
      mac_free_list r.pool = some l ∧ l.Nodup ∧
      ∀ i, i < mac_entity_buffer_count →
        (i ∈ l ↔ (r.pool.mac_entity_buffer i).kind = MAC_EntityKind.Null) := by
  obtain ⟨r, hr⟩ := Option.isSome_iff_exists.mp h
  obtain ⟨hinv, hk⟩ := pool_calls_kinds_inv calls _ r (pool_start_inv before)
    (pool_start_kinds_inv before) hne hr
  obtain ⟨l, hchain, _, _, hcount⟩ := hinv
  have hwalk : mac_free_list r.pool = some l := by
    apply free_list_walk_of_chain _ _ _ _ hchain
    omega
  exact ⟨r, l, hr, hwalk, free_chain_nodup _ l _ hchain, hk l hchain⟩

/-- C16: `os_launch_thread` has set the `reference_mask` of the entity to
0b11 in the pool in which `pthread_create` is called; the update of the
trampoline gives `old & ~0b10` and that of `os_release_thread_handle` gives
`old & ~0b01`; for every old mask, the new mask has no bit set that was clear
in the old one, the bit of the other owner is as it was, and the bit of the
owner itself is clear. -/
theorem reference_mask_only_cleared (lay : MAC_Layout) (s : MAC_Pool) (e func ptr : Nat)
    (pthread_result : Int) (native_thread : Nat) (hfree : s.mac_entity_free = some e) :
    (∃ s2, os_launch_thread_before_create s func ptr = some (s2, e) ∧
      (s2.mac_entity_buffer e).reference_mask = 0x3 ∧
      os_launch_thread lay s func ptr pthread_result native_thread =
        some (os_launch_thread_create lay s2 e pthread_result native_thread)) ∧
    (∀ (t : MAC_Pool) (entity : Nat),
      ((mac_thread_base_clear t entity).1.mac_entity_buffer entity).reference_mask =
        (t.mac_entity_buffer entity).reference_mask &&& not_0x2 ∧
      ((os_release_thread_handle_clear t entity).1.mac_entity_buffer entity).reference_mask =
        (t.mac_entity_buffer entity).reference_mask &&& not_0x1) ∧
    (∀ old i : Nat, ((old &&& not_0x2).testBit i = true → old.testBit i = true) ∧
      (old &&& not_0x2).testBit 0 = old.testBit 0 ∧ (old &&& not_0x2).testBit 1 = false) ∧
    (∀ old i : Nat, ((old &&& not_0x1).testBit i = true → old.testBit i = true) ∧
      (old &&& not_0x1).testBit 1 = old.testBit 1 ∧ (old &&& not_0x1).testBit 0 = false) := by
  have b20 : not_0x2.testBit 0 = true := by decide
  have b21 : not_0x2.testBit 1 = false := by decide
  have b10 : not_0x1.testBit 0 = false := by decide
  have b11 : not_0x1.testBit 1 = true := by decide
  refine ⟨?_, ?_, ?_, ?_⟩
  · have hbefore : ∃ s2, os_launch_thread_before_create s func ptr = some (s2, e) := by
      simp only [os_launch_thread_before_create, mac_alloc_entity_some s _ e hfree]
      exact ⟨_, rfl⟩
    obtain ⟨s2, hs2⟩ := hbefore
    have hs2c := hs2
    simp only [os_launch_thread_before_create, mac_alloc_entity_some s _ e hfree,
      Option.some.injEq, Prod.mk.injEq, and_true] at hs2c
    refine ⟨s2, hs2, ?_, ?_⟩
    · rw [← hs2c]
      simp [buffer_set]
    · rw [← hs2c]
      simp only [os_launch_thread, os_launch_thread_create, mac_alloc_entity_some s _ e hfree]
      split <;> rfl
  · intro t entity
    exact ⟨(sync_fetch_and_and_mask t entity not_0x2).2,
      (sync_fetch_and_and_mask t entity not_0x1).2⟩
  · intro old i
    refine ⟨?_, ?_, ?_⟩
    · intro h
      rw [Nat.testBit_land, Bool.and_eq_true] at h
      exact h.1
    · rw [Nat.testBit_land, b20, Bool.and_true]
    · rw [Nat.testBit_land, b21, Bool.and_false]
  · intro old i
    refine ⟨?_, ?_, ?_⟩
    · intro h
      rw [Nat.testBit_land, Bool.and_eq_true] at h
      exact h.1
    · rw [Nat.testBit_land, b11, Bool.and_true]
    · rw [Nat.testBit_land, b10, Bool.and_false]

/-- C17: when `os_file_open` returns (the flag `Execute` is not set, or
`NotImplemented` does not end the process) and the native `open` returns a
32-bit `int`, the handle is zero exactly when `open` returned -1; every
descriptor from 0 on, 0 included, gives a handle that is not zero; and for
the zero handle `os_file_close` calls no native `close` and `os_file_read`
returns 0 without a call of `pread`. -/
theorem os_file_open_zero_handle_iff (traps : Bool) (native_open : Nat → Nat → Int)
    (flags : OS_AccessFlags)
    (hret : flags.Execute = false ∨ traps = false)
    (hint : ∀ oflag mode, -2 ^ 31 ≤ native_open oflag mode ∧ native_open oflag mode < 2 ^ 31) :
    (∃ h, os_file_open traps native_open flags = some h ∧
      (h.u64_0 = 0 ↔ native_open (os_file_open_oflag flags) (os_file_open_mode flags) = -1) ∧
      (0 ≤ native_open (os_file_open_oflag flags) (os_file_open_mode flags) → h.u64_0 ≠ 0) ∧
      (native_open (os_file_open_oflag flags) (os_file_open_mode flags) = 0 → h.u64_0 = 1)) ∧
    os_file_close { u64_0 := 0 } = [] ∧
    (∀ native_pread size rng_min,
      os_file_read native_pread { u64_0 := 0 } size rng_min = (0, [])) := by
  have hfd0 : mac_file_descriptor_from_handle { u64_0 := 0 } = -1 := by decide
  refine ⟨?_, ?_, ?_⟩
  · have hopen : os_file_open traps native_open flags =
        some { u64_0 := (mac_handle_from_file_descriptor
          (native_open (os_file_open_oflag flags) (os_file_open_mode flags))) } := by
      rcases hret with he | ht
      · simp [os_file_open, he]
      · simp [os_file_open, NotImplemented, ht]
    obtain ⟨hlo, hhi⟩ := hint (os_file_open_oflag flags) (os_file_open_mode flags)
    refine ⟨_, hopen, ?_, ?_, ?_⟩
    · simp only [mac_handle_from_file_descriptor]
      omega
    · intro hpos
      simp only [mac_handle_from_file_descriptor]
      omega
    · intro hz
      simp only [mac_handle_from_file_descriptor, hz]
      decide
  · simp only [os_file_close, hfd0]
    decide
  · intro native_pread size rng_min
    simp only [os_file_read, hfd0]
    simp

/-- C19: for every 32-bit signed descriptor `fd`, -1 included,
`mac_file_descriptor_from_handle` of the handle whose `u64[0]` is
`mac_handle_from_file_descriptor(fd)` is `fd`. -/
theorem file_descriptor_round_trip (fd : Int) (hlo : -2 ^ 31 ≤ fd) (hhi : fd < 2 ^ 31) :
    mac_file_descriptor_from_handle { u64_0 := mac_handle_from_file_descriptor fd } = fd := by
  simp only [mac_file_descriptor_from_handle, mac_handle_from_file_descriptor, int_from_u64]
  omega

/-- C18, evaluated where the code departs from it: on the directory ".",
"..", "a", "b" with no skip flag, the entries that the flags do not exclude
are "a" and "b", and the calls of `os_file_iter_next` emit "a" alone: the
first call emits "a" and its further `readdir` takes "b" from the stream, the
second call returns 0. In general a call that emits an entry drops the entry
that follows it, whatever that entry is. -/
theorem os_file_iter_next_drops_entries :
    (example_directory.filter (fun entry => !iter_excluded no_skip_flags entry)).map
        (fun entry => entry.d_name) = [['a'], ['b']] ∧
    os_file_iter_all 10 { flags := no_skip_flags, dir := some example_directory } = [['a']] ∧
    os_file_iter_next { flags := no_skip_flags, dir := some example_directory } =
      ({ flags := no_skip_flags, dir := some [] }, some ['a']) ∧
    os_file_iter_next { flags := no_skip_flags, dir := some [] } =
      ({ flags := no_skip_flags, dir := some [] }, none) ∧
    (∀ (flags : OS_FileIterFlags) (first second : dirent) (rest : List dirent),
      flags.Done = false → usable_file flags first = true →
      os_file_iter_next { flags := flags, dir := some (first :: second :: rest) } =
        ({ flags := flags, dir := some rest }, some first.d_name)) := by
  refine ⟨by decide, by decide, by decide, by decide, ?_⟩
  intro flags first second rest hdone huse
  cases flags with
  | mk sfo sfi shi done =>
    simp only at hdone
    subst hdone
    simp [os_file_iter_next, os_file_iter_next_loop, huse]

/-- C20, evaluated where the code departs from it: for the list of one node
of 2 bytes (`total_size` 2) and a native `write` that returns -1, the loop
is left by the `break` that follows `written_amt < 0` with `success` still
true: the function returns true although the calls of `write` accepted 0 of
the 2 bytes. -/
theorem mac_write_list_true_after_failed_write (saturate : Nat → Nat) (fuel : Nat) :
    mac_write_list_to_file_descriptor saturate (fun _ _ => -1) (fuel + 1)
        { node_sizes := [2], total_size := 2 } =
      some { success := true, accepted := 0 } := by
  simp [mac_write_list_to_file_descriptor, mac_write_list_loop]

/-- C21, evaluated where the code departs from it: the case of the label
`SIGIO` has no `break`, so for the signal number of `SIGIO` (23) the run falls
through to the next case and the function returns "SIGKILL", the name it also
returns for `SIGKILL` (9), and not "SIGIO". The labels are pairwise distinct;
for every other label the function returns the name of the label, and for a
number that is no label it returns "<unknown-signal>". -/
theorem signal_name_falls_through :
    mac_string_from_signal SIGIO = "SIGKILL" ∧
    mac_string_from_signal SIGIO ≠ "SIGIO" ∧
    SIGIO ≠ SIGKILL ∧
    mac_string_from_signal SIGIO = mac_string_from_signal SIGKILL ∧
    (mac_string_from_signal_cases.map (fun c => c.label)).Nodup ∧
    (∀ c ∈ mac_string_from_signal_cases, c.label ≠ SIGIO →
      mac_string_from_signal c.label = c.literal) ∧
    (∀ signum, (∀ c ∈ mac_string_from_signal_cases, c.label ≠ signum) →
      mac_string_from_signal signum = "<unknown-signal>") := by
  refine ⟨by decide, by decide, by decide, by decide, by decide, by decide, ?_⟩
  intro signum h
  exact switch_on_no_label signum _ _ h

/-- C7, evaluated where the code departs from it: `os_safe_call(f_outer, A,
pa)` is running, `f_outer` has called `os_safe_call(f_inner, B, pb)`, and
`f_inner` has called `os_safe_call(g, C, pc)` for a `g` that does nothing,
which has returned. As `os_safe_call` has no pop, the chain head is still the
frame of the call that returned: the five fault signals are trapped, and for a
fault then delivered in `f_inner` the handler calls `C` with `pc` and then
`abort()`, and does not call `B`. With `C` and `pc` equal to `A` and `pa`
(handlers 1 and 3 below) it calls `A`. -/
theorem nested_fault_after_returned_call :
    (∀ (w0 : SafeCallState) (A pa addr_outer B pb addr_inner C pc addr_own : Nat)
        (before_inner : SafeCallState → SafeCallState) (signum : Int), C ≠ 0 →
      (∀ sig ∈ signals_to_handle,
        ((nested_inner_after_call w0 A pa addr_outer before_inner B pb addr_inner
          C pc addr_own).signal_table sig).sa_handler =
            SigHandler.mac_safe_call_sig_handler) ∧
      mac_safe_call_sig_handler
        (nested_inner_after_call w0 A pa addr_outer before_inner B pb addr_inner C pc addr_own)
        signum = [HandlerEvent.call C pc, HandlerEvent.abort]) ∧
    mac_safe_call_sig_handler
      (nested_inner_after_call safe_call_start 1 2 4096 (fun v => v) 3 4 4000 1 2 3900)
      SIGSEGV = [HandlerEvent.call 1 2, HandlerEvent.abort] ∧
    HandlerEvent.call 3 4 ∉
      mac_safe_call_sig_handler
        (nested_inner_after_call safe_call_start 1 2 4096 (fun v => v) 3 4 4000 1 2 3900)
        SIGSEGV ∧
    HandlerEvent.call 1 2 ∈
      mac_safe_call_sig_handler
        (nested_inner_after_call safe_call_start 1 2 4096 (fun v => v) 3 4 4000 1 2 3900)
        SIGSEGV := by
  have hgen : ∀ (w0 : SafeCallState) (A pa addr_outer B pb addr_inner C pc addr_own : Nat)
      (before_inner : SafeCallState → SafeCallState) (signum : Int), C ≠ 0 →
      mac_safe_call_sig_handler
        (nested_inner_after_call w0 A pa addr_outer before_inner B pb addr_inner C pc addr_own)
        signum = [HandlerEvent.call C pc, HandlerEvent.abort] := by
    intro w0 A pa addr_outer B pb addr_inner C pc addr_own before_inner signum hC
    obtain ⟨hhead, hframe⟩ := os_safe_call_returned_head C pc addr_own
      (nested_inner_start w0 A pa addr_outer before_inner B pb addr_inner)
    simp [mac_safe_call_sig_handler, nested_inner_after_call, hhead, hframe, hC]
  have hrun := hgen safe_call_start 1 2 4096 3 4 4000 1 2 3900 (fun v => v) SIGSEGV (by decide)
  refine ⟨?_, hrun, ?_, ?_⟩
  · intro w0 A pa addr_outer B pb addr_inner C pc addr_own before_inner signum hC
    refine ⟨?_, hgen w0 A pa addr_outer B pb addr_inner C pc addr_own before_inner signum hC⟩
    intro sig hsig
    simp only [nested_inner_after_call]
    rw [os_safe_call_signal_table (fun _ v => v) C pc addr_own _ (fun _ _ => rfl)]
    simp only [nested_inner_start]
    rw [os_safe_call_enter_table, if_pos hsig]
  · rw [hrun]
    decide
  · rw [hrun]
    decide

/-! ## The claims at concrete inputs -/

/-- C11 for the entity 1 and the pool `one_free_pool`. -/
theorem mac_free_then_alloc_reuses_witness :
    mac_free_list one_free_pool = some [0] ∧ 1 ∉ [0] ∧
    (((mac_free_entity one_free_pool 1).mac_entity_buffer 1).kind = MAC_EntityKind.Null ∧
    (mac_free_entity one_free_pool 1).mac_entity_free = some 1 ∧
    ((mac_free_entity one_free_pool 1).mac_entity_buffer 1).next =
      one_free_pool.mac_entity_free ∧
    free_chain (mac_free_entity one_free_pool 1).mac_entity_buffer
      (mac_free_entity one_free_pool 1).mac_entity_free (1 :: [0]) ∧
    ∃ s2, mac_alloc_entity (mac_free_entity one_free_pool 1) MAC_EntityKind.Mutex =
        some (s2, 1) ∧
      s2.mac_entity_free = one_free_pool.mac_entity_free ∧ mac_free_list s2 = some [0]) :=
  ⟨by decide, by decide,
    mac_free_then_alloc_reuses one_free_pool 1 MAC_EntityKind.Mutex [0] (by decide) (by decide)⟩

/-- C14 for the entities 0 and 1 and `example_layout`. -/
theorem handle_round_trip_witness :
    0 < mac_entity_buffer_count ∧ 1 < mac_entity_buffer_count ∧
    (PtrFromInt example_layout (IntFromPtr example_layout (some 0)) = some 0 ∧
    (IntFromPtr example_layout (some 0) = IntFromPtr example_layout (some 1) → 0 = 1) ∧
    (0 ≠ 1 → IntFromPtr example_layout (some 0) ≠ IntFromPtr example_layout (some 1)) ∧
    (∀ (s : MAC_Pool) (func ptr native : Nat), s.mac_entity_free = some 0 →
      (∃ s1 h, os_launch_thread example_layout s func ptr 0 native = some (s1, h) ∧
        PtrFromInt example_layout h.u64_0 = some 0) ∧
      (∃ s1 h, os_mutex_alloc example_layout s 0 native = some (s1, h) ∧
        PtrFromInt example_layout h.u64_0 = some 0) ∧
      (∃ s1 h, os_condition_variable_alloc example_layout s 0 native = some (s1, h) ∧
        PtrFromInt example_layout h.u64_0 = some 0)) ∧
    (∀ (s : MAC_Pool),
      os_release_thread_handle example_layout s
          { u64_0 := IntFromPtr example_layout (some 0) } =
        some (os_release_thread_entity s 0))) :=
  ⟨by decide, by decide, handle_round_trip example_layout 0 1 (by decide) (by decide)⟩

set_option maxRecDepth 100000 in
/-- C15 after three calls made on the pool of `os_init`. -/
theorem free_list_iff_kind_null_witness :
    (∀ c ∈ [PoolCall.alloc MAC_EntityKind.Mutex, PoolCall.alloc MAC_EntityKind.Thread,
        PoolCall.free 0], c ≠ PoolCall.alloc MAC_EntityKind.Null) ∧
    (pool_calls (pool_start zero_pool)
      [PoolCall.alloc MAC_EntityKind.Mutex, PoolCall.alloc MAC_EntityKind.Thread,
       PoolCall.free 0]).isSome = true ∧
    ∃ r l, pool_calls (pool_start zero_pool)
        [PoolCall.alloc MAC_EntityKind.Mutex, PoolCall.alloc MAC_EntityKind.Thread,
         PoolCall.free 0] = some r ∧
      mac_free_list r.pool = some l ∧ l.Nodup ∧
      ∀ i, i < mac_entity_buffer_count →
        (i ∈ l ↔ (r.pool.mac_entity_buffer i).kind = MAC_EntityKind.Null) :=
  ⟨by decide, by decide, free_list_iff_kind_null zero_pool _ (by decide) (by decide)⟩

/-- C16 for a launch from `one_free_pool`. -/
theorem reference_mask_only_cleared_witness :
    one_free_pool.mac_entity_free = some 0 ∧
    ((∃ s2, os_launch_thread_before_create one_free_pool 7 9 = some (s2, 0) ∧
      (s2.mac_entity_buffer 0).reference_mask = 0x3 ∧
      os_launch_thread example_layout one_free_pool 7 9 0 5 =
        some (os_launch_thread_create example_layout s2 0 0 5)) ∧
    (∀ (t : MAC_Pool) (entity : Nat),
      ((mac_thread_base_clear t entity).1.mac_entity_buffer entity).reference_mask =
        (t.mac_entity_buffer entity).reference_mask &&& not_0x2 ∧
      ((os_release_thread_handle_clear t entity).1.mac_entity_buffer entity).reference_mask =
        (t.mac_entity_buffer entity).reference_mask &&& not_0x1) ∧
    (∀ old i : Nat, ((old &&& not_0x2).testBit i = true → old.testBit i = true) ∧
      (old &&& not_0x2).testBit 0 = old.testBit 0 ∧ (old &&& not_0x2).testBit 1 = false) ∧
    (∀ old i : Nat, ((old &&& not_0x1).testBit i = true → old.testBit i = true) ∧
      (old &&& not_0x1).testBit 1 = old.testBit 1 ∧ (old &&& not_0x1).testBit 0 = false)) :=
  ⟨rfl, reference_mask_only_cleared example_layout one_free_pool 0 7 9 0 5 rfl⟩

/-- C17 for a native `open` that fails, with the flag `Read` alone. -/
theorem os_file_open_zero_handle_iff_witness :
    ((false : Bool) = false ∨ (true : Bool) = false) ∧
    (∀ (oflag mode : Nat), -2 ^ 31 ≤ (fun (_ _ : Nat) => (-1 : Int)) oflag mode ∧
      (fun (_ _ : Nat) => (-1 : Int)) oflag mode < 2 ^ 31) ∧
    ((∃ h, os_file_open true (fun _ _ => -1)
        { Read := true, Write := false, Execute := false, Shared := false } = some h ∧
      (h.u64_0 = 0 ↔ (fun (_ _ : Nat) => (-1 : Int))
          (os_file_open_oflag { Read := true, Write := false, Execute := false, Shared := false })
          (os_file_open_mode { Read := true, Write := false, Execute := false, Shared := false })
        = -1) ∧
      (0 ≤ (fun (_ _ : Nat) => (-1 : Int))
          (os_file_open_oflag { Read := true, Write := false, Execute := false, Shared := false })
          (os_file_open_mode { Read := true, Write := false, Execute := false, Shared := false })
        → h.u64_0 ≠ 0) ∧
      ((fun (_ _ : Nat) => (-1 : Int))
          (os_file_open_oflag { Read := true, Write := false, Execute := false, Shared := false })
          (os_file_open_mode { Read := true, Write := false, Execute := false, Shared := false })
        = 0 → h.u64_0 = 1)) ∧
    os_file_close { u64_0 := 0 } = [] ∧
    (∀ native_pread size rng_min,
      os_file_read native_pread { u64_0 := 0 } size rng_min = (0, []))) :=
  ⟨Or.inl rfl, fun _ _ => by constructor <;> norm_num,
    os_file_open_zero_handle_iff true (fun _ _ => -1)
      { Read := true, Write := false, Execute := false, Shared := false } (Or.inl rfl)
      (fun _ _ => by constructor <;> norm_num)⟩

/-- C19 for the descriptor -1. -/
theorem file_descriptor_round_trip_witness :
    (-2 ^ 31 : Int) ≤ -1 ∧ (-1 : Int) < 2 ^ 31 ∧
    mac_file_descriptor_from_handle { u64_0 := mac_handle_from_file_descriptor (-1) } = -1 :=
  ⟨by decide, by decide, file_descriptor_round_trip (-1) (by decide) (by decide)⟩



/-- C1 at the entity 0 of `thread_pool`. -/
theorem thread_entity_freed_once_witness :
    (thread_pool.mac_entity_buffer 0).reference_mask = 0x3 ∧
    (((mac_thread_base_finish thread_pool 0).2 = [] ∧
      (os_release_thread_entity (mac_thread_base_finish thread_pool 0).1 0).2 = [0]) ∧
    ((os_release_thread_entity thread_pool 0).2 = [] ∧
      (mac_thread_base_finish (os_release_thread_entity thread_pool 0).1 0).2 = [0]) ∧
    (∀ sched ∈ interleavings trampoline_steps handle_steps,
      ∃ o, last_clear sched = some o ∧
        (proto_run 0 (proto_start thread_pool) sched).free_calls = [(o, 0)])) :=
  ⟨rfl, thread_entity_freed_once thread_pool 0 rfl⟩

set_option maxRecDepth 100000 in
/-- C2 after the second of three calls made on the pool of `os_init`. -/
theorem pool_conservation_witness :
    (pool_calls (pool_start zero_pool)
      [PoolCall.alloc MAC_EntityKind.Mutex, PoolCall.alloc MAC_EntityKind.Thread,
       PoolCall.free 0]).isSome = true ∧
    ∃ r l, pool_calls (pool_start zero_pool)
        ([PoolCall.alloc MAC_EntityKind.Mutex, PoolCall.alloc MAC_EntityKind.Thread,
          PoolCall.free 0].take 2) = some r ∧
      mac_free_list r.pool = some l ∧ r.allocated.length + l.length = 1024 :=
  ⟨by decide, pool_conservation zero_pool _ 2 (by decide)⟩

/-- C5 for a `func` that does nothing, from `safe_call_start`. -/
theorem os_safe_call_restores_signal_table_witness :
    (∀ (p : Nat) (v : SafeCallState),
      ((fun (_ : Nat) (u : SafeCallState) => u) p v).signal_table = v.signal_table) ∧
    ((∀ signum, (os_safe_call (fun _ u => u) 7 9 4096 safe_call_start).signal_table signum =
      safe_call_start.signal_table signum) ∧
    (∀ (outer_handler outer_ptr outer_addr : Nat) (signum : Int),
      (os_safe_call (fun _ u => u) 7 9 4096
        (os_safe_call_enter outer_handler outer_ptr outer_addr safe_call_start).1).signal_table
          signum =
      (os_safe_call_enter outer_handler outer_ptr outer_addr safe_call_start).1.signal_table
        signum) ∧
    (∀ (outer_handler outer_ptr outer_addr : Nat) (signum : Int),
      (os_safe_call (fun _ v => os_safe_call (fun _ u => u) 7 9 4096 v)
        outer_handler outer_ptr outer_addr safe_call_start).signal_table signum =
          safe_call_start.signal_table signum)) :=
  ⟨fun _ _ => rfl,
    os_safe_call_restores_signal_table (fun _ u => u) 7 9 4096 safe_call_start (fun _ _ => rfl)⟩

/-- C8 for 1024 mutexes followed by one more. -/
theorem pool_exhaustion_witness :
    (List.replicate 1024 MAC_EntityKind.Mutex).length = 1024 ∧
    ∃ s es, alloc_all (List.replicate 1024 MAC_EntityKind.Mutex) (os_init zero_pool) =
        some (s, es) ∧
      es = List.range' 0 1024 ∧ es.length = 1024 ∧ es.Nodup ∧
      (∀ e ∈ es, e < mac_entity_buffer_count) ∧
      s.mac_entity_free = none ∧ mac_alloc_entity s MAC_EntityKind.Mutex = none ∧
      alloc_all (List.replicate 1024 MAC_EntityKind.Mutex ++ [MAC_EntityKind.Mutex])
        (os_init zero_pool) = none :=
  ⟨List.length_replicate 1024 MAC_EntityKind.Mutex,
    pool_exhaustion zero_pool (List.replicate 1024 MAC_EntityKind.Mutex) MAC_EntityKind.Mutex
      (List.length_replicate 1024 MAC_EntityKind.Mutex)⟩

/-- C9 for a launch from `one_free_pool`. -/
theorem no_premature_release_witness :
    mac_free_list one_free_pool = some (0 :: []) ∧ 0 < mac_entity_buffer_count ∧
    ∃ s1 thread, os_launch_thread example_layout one_free_pool 7 9 0 5 = some (s1, thread) ∧
      thread.u64_0 ≠ 0 ∧
      (s1.mac_entity_buffer 0).kind = MAC_EntityKind.Thread ∧
      (s1.mac_entity_buffer 0).reference_mask = 0x3 ∧
      ((mac_thread_base_finish s1 0).2 = [] ∧
        ((mac_thread_base_finish s1 0).1.mac_entity_buffer 0).kind = MAC_EntityKind.Thread ∧
        mac_free_list (mac_thread_base_finish s1 0).1 = some [] ∧ 0 ∉ ([] : List Nat)) ∧
      (∃ s2, os_release_thread_handle example_layout s1 thread = some (s2, []) ∧
        (s2.mac_entity_buffer 0).kind = MAC_EntityKind.Thread ∧
        mac_free_list s2 = some [] ∧ 0 ∉ ([] : List Nat)) :=
  ⟨by decide, by decide,
    no_premature_release example_layout one_free_pool 0 [] 7 9 5 (by decide) (by decide)⟩

/-- C10 for the pool `one_free_pool`. -/
theorem mac_alloc_entity_pops_head_witness :
    one_free_pool.mac_entity_free = some 0 ∧
    ∃ s1, mac_alloc_entity one_free_pool MAC_EntityKind.Mutex = some (s1, 0) ∧
      s1.mac_entity_free = (one_free_pool.mac_entity_buffer 0).next ∧
      (s1.mac_entity_buffer 0).kind = MAC_EntityKind.Mutex ∧
      s1.mac_entity_buffer 0 =
        { one_free_pool.mac_entity_buffer 0 with kind := MAC_EntityKind.Mutex } ∧
      (s1.mac_entity_buffer 0).next = (one_free_pool.mac_entity_buffer 0).next ∧
      (s1.mac_entity_buffer 0).reference_mask =
        (one_free_pool.mac_entity_buffer 0).reference_mask ∧
      (s1.mac_entity_buffer 0).thread_func = (one_free_pool.mac_entity_buffer 0).thread_func ∧
      (s1.mac_entity_buffer 0).thread_ptr = (one_free_pool.mac_entity_buffer 0).thread_ptr ∧
      (s1.mac_entity_buffer 0).thread_handle =
        (one_free_pool.mac_entity_buffer 0).thread_handle ∧
      (s1.mac_entity_buffer 0).mutex = (one_free_pool.mac_entity_buffer 0).mutex ∧
      (s1.mac_entity_buffer 0).cond = (one_free_pool.mac_entity_buffer 0).cond ∧
      ∀ j, j ≠ 0 → s1.mac_entity_buffer j = one_free_pool.mac_entity_buffer j :=
  ⟨rfl, mac_alloc_entity_pops_head one_free_pool MAC_EntityKind.Mutex 0 rfl⟩

end MacOsCore
